import Mathlib

/-!
Shallow embedding of the stock-movement core of the warehouse-desktop-management
repository (`src/service/stock_service.py`, `src/model/stock_record.py`,
`src/dao/inventory_dao.py`, `src/utils/validator.py`).

Conventions of the embedding:
* Python `None` becomes `Option`; Python truthiness of optional ints / strings /
  decimals is made explicit (`truthyInt`, `truthyStr`, `truthyRat`).
* `datetime` values are timestamps (`Int`); the `YYYYMMDD` string used by
  `generate_record_no` is carried separately in the database state (`nowDate`),
  exactly as `datetime.now().strftime` produces it.
* `Decimal` becomes `Rat` (exact arithmetic).
* The MySQL tables become lists of rows inside `DBState`; `AUTO_INCREMENT`
  ids are modelled with explicit counters.
* A raised Python exception becomes `Except.error`; the service's
  try/rollback/close bracket means a raising operation leaves the database
  unchanged, which the outer wrappers (`addInStock`, `addOutStock`) encode by
  returning the untouched input state alongside the error.
-/

namespace StockCore

/-- Row of the `warehouse` table (only the columns the stock flows read). -/
structure Warehouse where
  id : Int
  status : Int
deriving DecidableEq

/-- Row of the `product` table (only the columns the stock flows read). -/
structure Product where
  id : Int
  status : Int
deriving DecidableEq

/-- `model/stock_record.py` `StockRecord`: one ledger entry / movement request. -/
structure StockRecord where
  id : Option Nat := none
  record_no : Option String := none
  record_type : Option Int := none
  warehouse_id : Option Int := none
  product_id : Option Int := none
  quantity : Option Int := none
  unit_price : Option Rat := none
  total_amount : Option Rat := none
  supplier_client_id : Option Int := none
  operator : Option String := none
  record_date : Option Int := none
  remark : Option String := none
deriving DecidableEq

/-- Row of the `inventory` table (`model/inventory.py`). -/
structure InventoryRow where
  id : Nat
  warehouse_id : Int
  product_id : Int
  quantity : Int
  last_in_date : Option Int := none
  last_out_date : Option Int := none
deriving DecidableEq

/-- The relational store plus the clock, as one value. -/
structure DBState where
  warehouses : List Warehouse := []
  products : List Product := []
  stock_records : List StockRecord := []
  inventory : List InventoryRow := []
  now : Int := 0
  nowDate : String := ""
  nextRecordId : Nat := 1
  nextInvId : Nat := 1
deriving DecidableEq

/-- Python truthiness of an optional int (`None` and `0` are falsy). -/
def truthyInt : Option Int → Bool
  | none => false
  | some n => n != 0

/-- Python truthiness of an optional string (`None` and `""` are falsy). -/
def truthyStr : Option String → Bool
  | none => false
  | some s => s != ""

/-- Python truthiness of an optional Decimal (`None` and `0` are falsy). -/
def truthyRat : Option Rat → Bool
  | none => false
  | some q => q != 0

/-- `Validator.validate_not_empty`: fails when the value is `None` or a string
whose `strip()` is empty, i.e. every character is whitespace. -/
def validateNotEmpty : Option String → Bool
  | none => false
  | some s => !(s.data.all Char.isWhitespace)

/-- `StockService.validate_stock_record`, returning `(is_valid, errors)` with the
error messages accumulated in source order. -/
def validateStockRecord (now : Int) (r : StockRecord) : Bool × List String :=
  let e1 := if validateNotEmpty r.record_no then [] else ["单据号不能为空"]
  let e2 := if r.record_type = some 1 ∨ r.record_type = some 2 then []
            else ["记录类型必须是1（入库）或2（出库）"]
  let e3 := if truthyInt r.warehouse_id then [] else ["仓库ID不能为空"]
  let e4 := if truthyInt r.product_id then [] else ["货品ID不能为空"]
  let e5 := match r.quantity with
    | none => ["数量必须大于0"]
    | some q => if q ≤ 0 then ["数量必须大于0"] else []
  let e6 := match r.unit_price with
    | none => []
    | some u => if u < 0 then ["单价不能小于0"] else []
  let e7 := match r.record_date with
    | none => ["操作日期不能为空"]
    | some d => if now < d then ["操作日期不能晚于当前日期"] else []
  let errs := e1 ++ e2 ++ e3 ++ e4 ++ e5 ++ e6 ++ e7
  (errs.isEmpty, errs)

/-- `StockRecord.calculate_total_amount`: assigns `quantity * unit_price` to
`total_amount` only when both `quantity` and `unit_price` are truthy; in every
other case the Python method returns `Decimal('0')` without assigning the
field, so the record is returned untouched. -/
def calcTotalAmount (r : StockRecord) : StockRecord :=
  if truthyInt r.quantity && truthyRat r.unit_price then
    let tot : Rat := ((r.quantity.getD 0 : Int) : Rat) * r.unit_price.getD 0
    { r with total_amount := some tot }
  else r

/-- The exceptions the stock flows raise, keyed by raise site. -/
inductive StockErr
  /-- `ValueError("; ".join(errors))` from failed validation. -/
  | validationFailed (msgs : List String)
  /-- `Exception("仓库不存在")` -/
  | warehouseMissing
  /-- `Exception("仓库已禁用，…")` -/
  | warehouseDisabled
  /-- `Exception("货品不存在")` -/
  | productMissing
  /-- `Exception("货品已禁用，…")` -/
  | productDisabled
  /-- `Exception("库存不足，当前库存：current，需要：requested")` -/
  | insufficientStock (current requested : Int)
  /-- `Exception("库存不存在，无法出库")` -/
  | noBalanceRow
  /-- `ValueError` from `int()` on a non-digit suffix in `generate_record_no`. -/
  | genFailed
  /-- A `None` value reaching SQL arithmetic or a NOT NULL insert (`TypeError`
  or constraint error in Python); unreachable for validated records. -/
  | nullField
deriving DecidableEq

/-- `WarehouseDAO.get_by_id` (`SELECT * FROM warehouse WHERE id=%s`, first row);
an SQL comparison against NULL matches nothing. -/
def findWarehouse (ws : List Warehouse) (i : Option Int) : Option Warehouse :=
  match i with
  | none => none
  | some v => ws.find? (fun w => w.id == v)

/-- `ProductDAO.get_by_id`. -/
def findProduct (ps : List Product) (i : Option Int) : Option Product :=
  match i with
  | none => none
  | some v => ps.find? (fun p => p.id == v)

/-- The `WHERE warehouse_id=%s AND product_id=%s` predicate on inventory rows. -/
def rowMatches (wid pid : Option Int) (row : InventoryRow) : Bool :=
  wid == some row.warehouse_id && pid == some row.product_id

/-- `InventoryDAO.get_by_warehouse_product` / the in-transaction
`SELECT id, quantity FROM inventory WHERE …` with `fetchone`. -/
def findInvRow (inv : List InventoryRow) (wid pid : Option Int) : Option InventoryRow :=
  inv.find? (rowMatches wid pid)

/-- `InventoryDAO.check_stock`: false when no row exists, else
`quantity >= required`. -/
def checkStock (inv : List InventoryRow) (wid pid : Option Int) (required : Int) : Bool :=
  match findInvRow inv wid pid with
  | none => false
  | some row => required ≤ row.quantity

/-- `StockService._update_inventory_in_transaction`: read the row for the pair;
on inbound add the delta (creating the row when absent), on outbound subtract,
raising when the result would be negative or when no row exists. The SQL
`UPDATE … WHERE warehouse_id=%s AND product_id=%s` writes the one computed new
quantity into every matching row, which the `map` reproduces. -/
def updateInventoryTx (inv : List InventoryRow) (nextId : Nat) (r : StockRecord)
    (isIn : Bool) : Except StockErr (List InventoryRow × Nat) :=
  match findInvRow inv r.warehouse_id r.product_id with
  | some existing =>
    match r.quantity with
    | none => .error .nullField
    | some q =>
      if isIn then
        let newQ := existing.quantity + q
        .ok (inv.map (fun row =>
          if rowMatches r.warehouse_id r.product_id row then
            { row with quantity := newQ, last_in_date := r.record_date }
          else row), nextId)
      else
        let newQ := existing.quantity - q
        if newQ < 0 then .error (.insufficientStock existing.quantity q)
        else .ok (inv.map (fun row =>
          if rowMatches r.warehouse_id r.product_id row then
            { row with quantity := newQ, last_out_date := r.record_date }
          else row), nextId)
  | none =>
    if !isIn then .error .noBalanceRow
    else
      match r.warehouse_id, r.product_id, r.quantity with
      | some w, some p, some q =>
        .ok (inv ++ [{ id := nextId, warehouse_id := w, product_id := p,
                       quantity := q, last_in_date := r.record_date,
                       last_out_date := none }], nextId + 1)
      | _, _, _ => .error .nullField

/-- Byte-wise lexicographic comparison of character lists, as MySQL's
`ORDER BY record_no` compares the ASCII record numbers. -/
def charsLt : List Char → List Char → Bool
  | [], [] => false
  | [], _ :: _ => true
  | _ :: _, [] => false
  | a :: as, b :: bs => if a < b then true else if b < a then false else charsLt as bs

/-- String comparison via `charsLt`. -/
def strLt (a b : String) : Bool := charsLt a.data b.data

/-- `ORDER BY record_no DESC LIMIT 1`: the greatest string of the list. -/
def maxStr : List String → Option String
  | [] => none
  | s :: rest =>
    match maxStr rest with
    | none => some s
    | some m => if strLt m s then some s else some m

/-- Numeric value of a decimal digit character. -/
def digitVal (c : Char) : Nat := c.toNat - '0'.toNat

/-- Python `int()` restricted to plain digit strings (the only shape the
generated record numbers have); anything else raises, i.e. `none`. -/
def parseDigits (cs : List Char) : Option Nat :=
  if cs ≠ [] ∧ cs.all Char.isDigit then
    some (cs.foldl (fun acc c => 10 * acc + digitVal c) 0)
  else none

/-- Python slice `s[-n:]`: the last `n` characters (the whole string when it is
shorter than `n`). -/
def lastChars (n : Nat) (s : String) : List Char :=
  s.data.drop (s.data.length - n)

/-- Zero-padded fixed-width digit rendering: `w` digit characters of `n`
(most significant first), assuming `n < 10 ^ w`. -/
def padDigits : Nat → Nat → List Char
  | 0, _ => []
  | w + 1, n => Nat.digitChar (n / 10 ^ w) :: padDigits w (n % 10 ^ w)

/-- Python `f"{n:04d}"`: zero-pad to a minimum width of four; wider numbers are
printed in full. -/
def fmt04 (n : Nat) : String :=
  if n < 10000 then ⟨padDigits 4 n⟩ else Nat.repr n

/-- `StockService.generate_record_no`: prefix = kind code ++ today's `YYYYMMDD`;
take the lexicographically greatest stored `record_no` matching
`LIKE 'prefix%'`; `int()` its last four characters, add one (start at one when
nothing matches), format with `%04d` and append to the prefix. -/
def genRecordNo (st : DBState) (recordType : Int) : Option String :=
  let pfx := (if recordType = 1 then "RK" else if recordType = 2 then "CK" else "SR")
      ++ st.nowDate
  let matching := (st.stock_records.filterMap (fun r => r.record_no)).filter
      (fun s => pfx.data.isPrefixOf s.data)
  match maxStr matching with
  | none => some (pfx ++ fmt04 1)
  | some last =>
    match parseDigits (lastChars 4 last) with
    | none => none
    | some lastNum => some (pfx ++ fmt04 (lastNum + 1))

/-- Warehouse and product reference checks shared by both flows: each must
resolve by id and have status 1. -/
def refCheck (st : DBState) (r : StockRecord) : Except StockErr Unit :=
  match findWarehouse st.warehouses r.warehouse_id with
  | none => .error .warehouseMissing
  | some w =>
    if w.status ≠ 1 then .error .warehouseDisabled
    else
      match findProduct st.products r.product_id with
      | none => .error .productMissing
      | some p => if p.status ≠ 1 then .error .productDisabled else .ok ()

/-- The transactional tail of both flows: insert the record (receiving its
auto-increment id), apply the inventory delta, and commit both — or roll the
whole transaction back on any failure. -/
def txAppendAndApply (st : DBState) (r : StockRecord) (isIn : Bool) :
    Except StockErr (DBState × StockRecord) :=
  let inserted := { r with id := some st.nextRecordId }
  match updateInventoryTx st.inventory st.nextInvId inserted isIn with
  | .error e => .error e
  | .ok (inv', nid') =>
    .ok ({ st with stock_records := st.stock_records ++ [inserted],
                   inventory := inv',
                   nextRecordId := st.nextRecordId + 1,
                   nextInvId := nid' }, inserted)

/-- `StockService.add_in_stock` as an exception-propagating computation. -/
def addInStockE (st : DBState) (r0 : StockRecord) : Except StockErr (DBState × StockRecord) :=
  let r1 := { r0 with record_type := some 1 }
  let withNo : Except StockErr StockRecord :=
    if truthyStr r1.record_no then .ok r1
    else match genRecordNo st 1 with
      | some no => .ok { r1 with record_no := some no }
      | none => .error .genFailed
  match withNo with
  | .error e => .error e
  | .ok r2 =>
    let v := validateStockRecord st.now r2
    if !v.1 then .error (.validationFailed v.2)
    else match refCheck st r2 with
      | .error e => .error e
      | .ok _ => txAppendAndApply st (calcTotalAmount r2) true

/-- `StockService.add_in_stock`: on success the new state and the persisted
record; on a raised exception the rollback leaves the state untouched. -/
def addInStock (st : DBState) (r0 : StockRecord) : DBState × Except StockErr StockRecord :=
  match addInStockE st r0 with
  | .ok (st', rcd) => (st', .ok rcd)
  | .error e => (st, .error e)

/-- The outbound pre-check of `add_out_stock`: `check_stock`, and on failure a
second lookup to report the current quantity (0 when no row exists). -/
def stockPreCheck (st : DBState) (r : StockRecord) : Except StockErr Unit :=
  match r.quantity with
  | none => .error .nullField
  | some q =>
    if checkStock st.inventory r.warehouse_id r.product_id q then .ok ()
    else
      let current := match findInvRow st.inventory r.warehouse_id r.product_id with
        | some row => row.quantity
        | none => 0
      .error (.insufficientStock current q)

/-- `StockService.add_out_stock` as an exception-propagating computation. -/
def addOutStockE (st : DBState) (r0 : StockRecord) : Except StockErr (DBState × StockRecord) :=
  let r1 := { r0 with record_type := some 2 }
  let withNo : Except StockErr StockRecord :=
    if truthyStr r1.record_no then .ok r1
    else match genRecordNo st 2 with
      | some no => .ok { r1 with record_no := some no }
      | none => .error .genFailed
  match withNo with
  | .error e => .error e
  | .ok r2 =>
    let v := validateStockRecord st.now r2
    if !v.1 then .error (.validationFailed v.2)
    else match refCheck st r2 with
      | .error e => .error e
      | .ok _ =>
        match stockPreCheck st r2 with
        | .error e => .error e
        | .ok _ => txAppendAndApply st (calcTotalAmount r2) false

/-- `StockService.add_out_stock` with the rollback bracket. -/
def addOutStock (st : DBState) (r0 : StockRecord) : DBState × Except StockErr StockRecord :=
  match addOutStockE st r0 with
  | .ok (st', rcd) => (st', .ok rcd)
  | .error e => (st, .error e)

instance instDecEqExcept {ε α : Type} [DecidableEq ε] [DecidableEq α] :
    DecidableEq (Except ε α) := fun a b =>
  match a, b with
  | .error e, .error f =>
    if h : e = f then .isTrue (by rw [h]) else .isFalse (by intro hh; cases hh; exact h rfl)
  | .error _, .ok _ => .isFalse (by intro hh; cases hh)
  | .ok _, .error _ => .isFalse (by intro hh; cases hh)
  | .ok x, .ok y =>
    if h : x = y then .isTrue (by rw [h]) else .isFalse (by intro hh; cases hh; exact h rfl)

/-- The four reference-check failures of §4.1 / the status checks in both flows. -/
def isRefErr (e : StockErr) : Prop :=
  e = .warehouseMissing ∨ e = .warehouseDisabled ∨ e = .productMissing ∨ e = .productDisabled

/-- Whether a ledger record belongs to the (warehouse, product) pair. -/
def isForPair (w p : Int) (r : StockRecord) : Bool :=
  r.warehouse_id == some w && r.product_id == some p

/-- The committed ledger records of one (warehouse, product) pair. -/
def recordsFor (w p : Int) (l : List StockRecord) : List StockRecord :=
  l.filter (isForPair w p)

/-- Quantity of a ledger record (validated records always carry one). -/
def qtyOf (r : StockRecord) : Int := r.quantity.getD 0

/-- Σ quantity over the committed inbound (`record_type = 1`) records of a pair. -/
def inboundSum (w p : Int) (l : List StockRecord) : Int :=
  (((recordsFor w p l).filter (fun r => r.record_type == some 1)).map qtyOf).sum

/-- Σ quantity over the committed outbound (`record_type = 2`) records of a pair. -/
def outboundSum (w p : Int) (l : List StockRecord) : Int :=
  (((recordsFor w p l).filter (fun r => r.record_type == some 2)).map qtyOf).sum

/-- The inventory rows of one (warehouse, product) pair, in table order. -/
def rowsFor (w p : Int) (inv : List InventoryRow) : List InventoryRow :=
  inv.filter (rowMatches (some w) (some p))

/-- The quantity the balance row of a pair reports (0 when no row exists),
reading the first matching row as `fetchone` does. -/
def balanceOf (w p : Int) (inv : List InventoryRow) : Int :=
  match findInvRow inv (some w) (some p) with
  | some row => row.quantity
  | none => 0

/-- A request posted against the movement engine. -/
inductive StockOp
  | inbound (r : StockRecord)
  | outbound (r : StockRecord)

/-- Apply one request; a raised exception rolls back, leaving the state as it
was. -/
def applyOp (st : DBState) : StockOp → DBState
  | .inbound r => (addInStock st r).1
  | .outbound r => (addOutStock st r).1

/-- Run a sequence of requests in order. -/
def runOps (st : DBState) : List StockOp → DBState
  | [] => st
  | op :: rest => runOps (applyOp st op) rest

/-- The query dictionary handed to `search_stock_records` (any key may be
absent; `supplier_client_id` can be present in the dictionary but the method
never reads it). -/
structure SearchConds where
  warehouse_id : Option Int := none
  product_id : Option Int := none
  record_type : Option Int := none
  start_date : Option Int := none
  end_date : Option Int := none
  record_no : Option String := none
  operator : Option String := none
  supplier_client_id : Option Int := none

/-- Substring test on character lists (SQL `LIKE '%needle%'`). -/
def listContainsSub (needle : List Char) : List Char → Bool
  | [] => needle.isEmpty
  | c :: rest => needle.isPrefixOf (c :: rest) || listContainsSub needle rest

/-- Substring test on strings. -/
def strContainsSub (hay needle : String) : Bool := listContainsSub needle.data hay.data

/-- The WHERE clause `search_stock_records` assembles: each condition is added
only when the dictionary value is truthy (`0`, `""` and `None` are skipped;
datetimes are always truthy when present), and an SQL comparison with a NULL
column never matches. -/
def condMatches (c : SearchConds) (r : StockRecord) : Bool :=
  (if truthyInt c.warehouse_id then r.warehouse_id == c.warehouse_id else true) &&
  (if truthyInt c.product_id then r.product_id == c.product_id else true) &&
  (if truthyInt c.record_type then r.record_type == c.record_type else true) &&
  (match c.start_date with
    | none => true
    | some s => match r.record_date with
      | some d => decide (s ≤ d)
      | none => false) &&
  (match c.end_date with
    | none => true
    | some e => match r.record_date with
      | some d => decide (d ≤ e)
      | none => false) &&
  (if truthyStr c.record_no then
      (match r.record_no, c.record_no with
        | some s, some needle => strContainsSub s needle
        | _, _ => false) else true) &&
  (if truthyStr c.operator then
      (match r.operator, c.operator with
        | some s, some needle => strContainsSub s needle
        | _, _ => false) else true)

/-- `a < b` on nullable SQL integers with NULL smallest (so that
`ORDER BY … DESC` places NULL dates last). -/
def optIntLtB : Option Int → Option Int → Bool
  | none, none => false
  | none, some _ => true
  | some _, none => false
  | some a, some b => decide (a < b)

/-- `a < b` on nullable auto-increment ids, NULL smallest. -/
def optNatLtB : Option Nat → Option Nat → Bool
  | none, none => false
  | none, some _ => true
  | some _, none => false
  | some a, some b => decide (a < b)

/-- `ORDER BY record_date DESC, id DESC` as a total Boolean order: `a` may be
listed no later than `b`. -/
def recOrdLe (a b : StockRecord) : Bool :=
  if optIntLtB b.record_date a.record_date then true
  else if optIntLtB a.record_date b.record_date then false
  else !(optNatLtB a.id b.id)

/-- The output order as a relation. -/
def recBefore (a b : StockRecord) : Prop := recOrdLe a b = true

instance decRecBefore : DecidableRel recBefore := fun a b =>
  instDecidableEqBool (recOrdLe a b) true

/-- `StockService.search_stock_records`: the rows matching the assembled WHERE
clause, ordered by `record_date DESC, id DESC`. -/
def searchStockRecords (c : SearchConds) (ledger : List StockRecord) : List StockRecord :=
  List.insertionSort recBefore (ledger.filter (condMatches c))

/-- The document-number prefix `generate_record_no` builds for a record type. -/
def pfxFor (st : DBState) (recordType : Int) : String :=
  (if recordType = 1 then "RK" else if recordType = 2 then "CK" else "SR") ++ st.nowDate

/-- All stored record numbers. -/
def recordNos (st : DBState) : List String :=
  st.stock_records.filterMap (fun r => r.record_no)

/-- The stored record numbers matching `LIKE 'pfx%'`. -/
def matchingNos (pfx : String) (st : DBState) : List String :=
  (recordNos st).filter (fun s => pfx.data.isPrefixOf s.data)

/-- A ledger is well-formed for a prefix with top sequence number `n` when
every stored number under the prefix is the prefix plus a four-digit suffix at
most `n`, and `n` itself is stored (or nothing is stored and `n = 0`). -/
def wfNos (pfx : String) (n : Nat) (st : DBState) : Prop :=
  n ≤ 9999 ∧
  (∀ s ∈ matchingNos pfx st, ∃ m, m ≤ 9999 ∧ s = pfx ++ fmt04 m ∧ m ≤ n) ∧
  (n = 0 ∨ (pfx ++ fmt04 n) ∈ matchingNos pfx st)

/-- Append a ledger row carrying a freshly generated document number (the
ledger insert `add_in_stock` / `add_out_stock` performs with it). -/
def appendNo (st : DBState) (no : String) : DBState :=
  { st with stock_records := st.stock_records ++ [{ record_no := some no }] }

/-- Sequential posting: generate a number, append it, repeat; the list collects
each generated number in order (`none` marks a raising generation). -/
def genSeq (st : DBState) (recordType : Int) : Nat → List (Option String)
  | 0 => []
  | k + 1 =>
    let g := genRecordNo st recordType
    g :: genSeq (match g with | some no => appendNo st no | none => st) recordType k

/-- Concrete base fixture: one active warehouse (id 1), one active product
(id 7), empty ledger and inventory. -/
def baseState : DBState :=
  { warehouses := [⟨1, 1⟩], products := [⟨7, 1⟩], now := 1000, nowDate := "20250101" }

/-- Concrete outbound request against the untouched pair (1, 7). -/
def outReq5 : StockRecord :=
  { record_no := some "CK202501010001", warehouse_id := some 1, product_id := some 7,
    quantity := some 5, record_date := some 900 }

/-- Base fixture with three units of product 7 on hand in warehouse 1. -/
def stockedState : DBState :=
  { baseState with inventory := [⟨1, 1, 7, 3, some 800, none⟩] }

/-- Inbound request with a zero unit price and a caller-supplied total. -/
def zeroPriceReq : StockRecord :=
  { record_no := some "RK202501010001", warehouse_id := some 1, product_id := some 7,
    quantity := some 5, unit_price := some 0, total_amount := some 999,
    record_date := some 900 }

/-- Request referencing a disabled warehouse. -/
def disabledState : DBState :=
  { baseState with warehouses := [⟨1, 0⟩] }

/-- Valid inbound request carrying no document number at all. -/
def noNoReq : StockRecord :=
  { warehouse_id := some 1, product_id := some 7, quantity := some 2,
    record_date := some 900 }

/-- Request violating several validation rules at once (whitespace-only
document number, zero quantity, negative price, missing date). -/
def badReq : StockRecord :=
  { record_no := some " ", warehouse_id := some 1, product_id := some 7,
    quantity := some 0, unit_price := some (-1) }

/-- Modelled from the claim's words (C5), for comparison with the source's
`validate_stock_record`: the violated-field messages of a request — empty
(whitespace-only) document number, missing warehouse id, missing product id,
quantity not a positive integer, present negative unit price, missing or
future occurred-at date. -/
def specC5Msgs (now : Int) (r : StockRecord) : List String :=
  (match r.record_no with
    | none => ["单据号不能为空"]
    | some s => if s.data.all Char.isWhitespace then ["单据号不能为空"] else []) ++
  (match r.warehouse_id with
    | none => ["仓库ID不能为空"]
    | some w => if w = 0 then ["仓库ID不能为空"] else []) ++
  (match r.product_id with
    | none => ["货品ID不能为空"]
    | some v => if v = 0 then ["货品ID不能为空"] else []) ++
  (match r.quantity with
    | none => ["数量必须大于0"]
    | some q => if q ≤ 0 then ["数量必须大于0"] else []) ++
  (match r.unit_price with
    | none => []
    | some u => if u < 0 then ["单价不能小于0"] else []) ++
  (match r.record_date with
    | none => ["操作日期不能为空"]
    | some d => if now < d then ["操作日期不能晚于当前日期"] else [])

/-- Fixture whose day sequence for inbound numbers is exhausted at 9999. -/
def overflowState : DBState :=
  { baseState with stock_records := [{ record_no := some "RK202501019999" }] }

/-- Ledger row carrying counterparty 2, for probing the search filters. -/
def counterpartyRec : StockRecord :=
  { id := some 1, record_no := some "RK1", record_type := some 1,
    warehouse_id := some 1, product_id := some 7, quantity := some 5,
    supplier_client_id := some 2, record_date := some 100 }

/-- Example movement sequence from the spec's §8: inbound 100, outbound 30,
and an outbound 71 that must be rejected. -/
def c1Ops : List StockOp :=
  [.inbound { record_no := some "RK1", warehouse_id := some 1, product_id := some 7,
              quantity := some 100, record_date := some 900 },
   .outbound { record_no := some "CK1", warehouse_id := some 1, product_id := some 7,
               quantity := some 30, record_date := some 900 },
   .outbound { record_no := some "CK2", warehouse_id := some 1, product_id := some 7,
               quantity := some 71, record_date := some 900 }]

/-- The per-pair invariant the movement engine maintains: either no inventory
row exists for the pair and the pair's ledger sums cancel, or exactly one row
exists, carrying a non-negative quantity equal to inbound minus outbound. -/
def PairInv (w p : Int) (st : DBState) : Prop :=
  (rowsFor w p st.inventory = [] ∧
    inboundSum w p st.stock_records - outboundSum w p st.stock_records = 0) ∨
  (∃ row, rowsFor w p st.inventory = [row] ∧ 0 ≤ row.quantity ∧
    row.quantity = inboundSum w p st.stock_records - outboundSum w p st.stock_records)

/-! ## Theorems -/

theorem find?_eq_head?_filter {α : Type} (p : α → Bool) (l : List α) :
    l.find? p = (l.filter p).head? := by
  induction l with
  | nil => rfl
  | cons a t ih =>
    cases hpa : p a
    · rw [List.find?_cons, List.filter_cons]
      simp only [hpa, if_neg, Bool.false_eq_true, not_false_iff, ite_false]
      exact ih
    · rw [List.find?_cons, List.filter_cons]
      simp only [hpa, ite_true, List.head?_cons]

theorem findInvRow_eq_head (inv : List InventoryRow) (w p : Int) :
    findInvRow inv (some w) (some p) = (rowsFor w p inv).head? :=
  find?_eq_head?_filter _ inv

/-- A row-level update that cannot change which pair a row belongs to leaves
the set of rows of any pair stable. -/
theorem rowsFor_map (w p : Int) (f : InventoryRow → InventoryRow)
    (hf : ∀ row, rowMatches (some w) (some p) (f row) = rowMatches (some w) (some p) row)
    (inv : List InventoryRow) :
    rowsFor w p (inv.map f) = (rowsFor w p inv).map f := by
  induction inv with
  | nil => rfl
  | cons a t ih =>
    rw [List.map_cons]
    unfold rowsFor at *
    rw [List.filter_cons, List.filter_cons, hf a]
    cases hm : rowMatches (some w) (some p) a
    · simpa using ih
    · simpa using ih

theorem rowsFor_append (w p : Int) (inv₁ inv₂ : List InventoryRow) :
    rowsFor w p (inv₁ ++ inv₂) = rowsFor w p inv₁ ++ rowsFor w p inv₂ :=
  List.filter_append _ _

theorem recordsFor_append (w p : Int) (l₁ l₂ : List StockRecord) :
    recordsFor w p (l₁ ++ l₂) = recordsFor w p l₁ ++ recordsFor w p l₂ :=
  List.filter_append _ _

theorem inboundSum_append_single (w p : Int) (l : List StockRecord) (r : StockRecord) :
    inboundSum w p (l ++ [r]) =
      inboundSum w p l +
        (if isForPair w p r && r.record_type == some 1 then qtyOf r else 0) := by
  unfold inboundSum recordsFor
  rw [List.filter_append, List.filter_append, List.map_append, List.sum_append]
  cases h1 : isForPair w p r
  · simp [List.filter_cons, h1]
  · cases h2 : r.record_type == some 1 <;> simp [List.filter_cons, h1, h2]

theorem outboundSum_append_single (w p : Int) (l : List StockRecord) (r : StockRecord) :
    outboundSum w p (l ++ [r]) =
      outboundSum w p l +
        (if isForPair w p r && r.record_type == some 2 then qtyOf r else 0) := by
  unfold outboundSum recordsFor
  rw [List.filter_append, List.filter_append, List.map_append, List.sum_append]
  cases h1 : isForPair w p r
  · simp [List.filter_cons, h1]
  · cases h2 : r.record_type == some 2 <;> simp [List.filter_cons, h1, h2]

/-- Claim C8: inside the transaction, an inbound movement onto an existing row
writes the summed quantity and the movement date into `last_in_date`, leaving
`last_out_date` and `id` unchanged; an outbound movement writes the subtracted
quantity and the movement date into `last_out_date`, leaving `last_in_date`
and `id` unchanged; the first inbound with no row present creates exactly the
row (warehouse, product, quantity, `last_in_date`, NULL `last_out_date`); and
in every case the rows of other pairs are untouched. -/
theorem updateInventoryTx_effects (inv : List InventoryRow) (nid : Nat)
    (r : StockRecord) (w p q : Int)
    (hw : r.warehouse_id = some w) (hp : r.product_id = some p)
    (hq : r.quantity = some q) :
    (∀ e, findInvRow inv (some w) (some p) = some e →
      ∃ inv', updateInventoryTx inv nid r true = .ok (inv', nid) ∧
        inv'.length = inv.length ∧
        ∀ i (hi : i < inv.length) (hi' : i < inv'.length),
          (rowMatches (some w) (some p) inv[i] = false → inv'[i] = inv[i]) ∧
          (rowMatches (some w) (some p) inv[i] = true →
            inv'[i] = { inv[i] with quantity := e.quantity + q,
                                    last_in_date := r.record_date })) ∧
    (∀ e, findInvRow inv (some w) (some p) = some e → 0 ≤ e.quantity - q →
      ∃ inv', updateInventoryTx inv nid r false = .ok (inv', nid) ∧
        inv'.length = inv.length ∧
        ∀ i (hi : i < inv.length) (hi' : i < inv'.length),
          (rowMatches (some w) (some p) inv[i] = false → inv'[i] = inv[i]) ∧
          (rowMatches (some w) (some p) inv[i] = true →
            inv'[i] = { inv[i] with quantity := e.quantity - q,
                                    last_out_date := r.record_date })) ∧
    (findInvRow inv (some w) (some p) = none →
      updateInventoryTx inv nid r true =
        .ok (inv ++ [{ id := nid, warehouse_id := w, product_id := p, quantity := q,
                       last_in_date := r.record_date, last_out_date := none }], nid + 1)) := by
  refine ⟨?_, ?_, ?_⟩
  · intro e he
    refine ⟨inv.map (fun row =>
        if rowMatches (some w) (some p) row then
          { row with quantity := e.quantity + q, last_in_date := r.record_date }
        else row), ?_, by simp, ?_⟩
    · unfold updateInventoryTx
      rw [hw, hp, he, hq]
      rfl
    · intro i hi hi'
      constructor
      · intro hm
        rw [List.getElem_map]
        simp [hm]
      · intro hm
        rw [List.getElem_map]
        simp [hm]
  · intro e he hge
    refine ⟨inv.map (fun row =>
        if rowMatches (some w) (some p) row then
          { row with quantity := e.quantity - q, last_out_date := r.record_date }
        else row), ?_, by simp, ?_⟩
    · unfold updateInventoryTx
      rw [hw, hp, he, hq]
      simp only [Bool.false_eq_true, if_false]
      rw [if_neg (by omega)]
    · intro i hi hi'
      constructor
      · intro hm
        rw [List.getElem_map]
        simp [hm]
      · intro hm
        rw [List.getElem_map]
        simp [hm]
  · intro he
    unfold updateInventoryTx
    rw [hw, hp, he, hq]
    rfl

/-- Claim C8 witness: instantiating the transaction-update theorem on a
two-row inventory. -/
theorem updateInventoryTx_effects_witness :
    let row1 : InventoryRow := ⟨1, 1, 7, 10, some 100, none⟩
    let row2 : InventoryRow := ⟨2, 2, 7, 3, some 50, some 60⟩
    let r : StockRecord := { warehouse_id := some 1, product_id := some 7,
                             quantity := some 4, record_date := some 200 }
    ∃ inv', updateInventoryTx [row1, row2] 3 r true = .ok (inv', 3) ∧
      inv'.length = 2 ∧
      ∀ i (hi : i < ([row1, row2] : List InventoryRow).length) (hi' : i < inv'.length),
        (rowMatches (some 1) (some 7) ([row1, row2] : List InventoryRow)[i] = false →
          inv'[i] = ([row1, row2] : List InventoryRow)[i]) ∧
        (rowMatches (some 1) (some 7) ([row1, row2] : List InventoryRow)[i] = true →
          inv'[i] = { ([row1, row2] : List InventoryRow)[i] with
                        quantity := row1.quantity + 4, last_in_date := r.record_date }) := by
  exact (updateInventoryTx_effects [⟨1, 1, 7, 10, some 100, none⟩, ⟨2, 2, 7, 3, some 50, some 60⟩]
      3 { warehouse_id := some 1, product_id := some 7, quantity := some 4,
          record_date := some 200 } 1 7 4 rfl rfl rfl).1
    ⟨1, 1, 7, 10, some 100, none⟩ (by decide)

theorem refCheck_record_type (st : DBState) (r : StockRecord) (t : Option Int) :
    refCheck st { r with record_type := t } = refCheck st r := rfl

theorem stockPreCheck_record_type (st : DBState) (r : StockRecord) (t : Option Int) :
    stockPreCheck st { r with record_type := t } = stockPreCheck st r := rfl

/-- Everything a passed validation guarantees about the record. -/
theorem validate_parts {now : Int} {r : StockRecord}
    (h : (validateStockRecord now r).1 = true) :
    validateNotEmpty r.record_no = true ∧
    (r.record_type = some 1 ∨ r.record_type = some 2) ∧
    truthyInt r.warehouse_id = true ∧
    truthyInt r.product_id = true ∧
    (∃ q, r.quantity = some q ∧ 0 < q) ∧
    (∀ u, r.unit_price = some u → 0 ≤ u) ∧
    (∃ d, r.record_date = some d ∧ d ≤ now) := by
  unfold validateStockRecord at h
  simp only [List.isEmpty_eq_true, List.append_eq_nil] at h
  obtain ⟨⟨⟨⟨⟨⟨h1, h2⟩, h3⟩, h4⟩, h5⟩, h6⟩, h7⟩ := h
  refine ⟨?_, ?_, ?_, ?_, ?_, ?_, ?_⟩
  · cases hb : validateNotEmpty r.record_no
    · rw [hb] at h1; simp at h1
    · rfl
  · by_cases hb : r.record_type = some 1 ∨ r.record_type = some 2
    · exact hb
    · rw [if_neg hb] at h2; simp at h2
  · cases hb : truthyInt r.warehouse_id
    · rw [hb] at h3; simp at h3
    · rfl
  · cases hb : truthyInt r.product_id
    · rw [hb] at h4; simp at h4
    · rfl
  · cases hb : r.quantity with
    | none => simp only [hb] at h5; simp at h5
    | some q =>
      simp only [hb] at h5
      by_cases hq : q ≤ 0
      · rw [if_pos hq] at h5; simp at h5
      · exact ⟨q, rfl, by omega⟩
  · intro u hu
    simp only [hu] at h6
    by_cases hneg : u < 0
    · rw [if_pos hneg] at h6; simp at h6
    · exact le_of_not_lt hneg
  · cases hb : r.record_date with
    | none => simp only [hb] at h7; simp at h7
    | some d =>
      simp only [hb] at h7
      by_cases hd : now < d
      · rw [if_pos hd] at h7; simp at h7
      · exact ⟨d, rfl, le_of_not_lt hd⟩

theorem calcTotalAmount_record_no (r : StockRecord) :
    (calcTotalAmount r).record_no = r.record_no := by
  unfold calcTotalAmount; split <;> rfl

theorem calcTotalAmount_record_type (r : StockRecord) :
    (calcTotalAmount r).record_type = r.record_type := by
  unfold calcTotalAmount; split <;> rfl

theorem calcTotalAmount_warehouse_id (r : StockRecord) :
    (calcTotalAmount r).warehouse_id = r.warehouse_id := by
  unfold calcTotalAmount; split <;> rfl

theorem calcTotalAmount_product_id (r : StockRecord) :
    (calcTotalAmount r).product_id = r.product_id := by
  unfold calcTotalAmount; split <;> rfl

theorem calcTotalAmount_quantity (r : StockRecord) :
    (calcTotalAmount r).quantity = r.quantity := by
  unfold calcTotalAmount; split <;> rfl

theorem calcTotalAmount_unit_price (r : StockRecord) :
    (calcTotalAmount r).unit_price = r.unit_price := by
  unfold calcTotalAmount; split <;> rfl

theorem calcTotalAmount_record_date (r : StockRecord) :
    (calcTotalAmount r).record_date = r.record_date := by
  unfold calcTotalAmount; split <;> rfl

/-- What a committed transaction tail did to the state. -/
theorem txAppendAndApply_ok {st : DBState} {r : StockRecord} {isIn : Bool}
    {st' : DBState} {rcd : StockRecord}
    (h : txAppendAndApply st r isIn = .ok (st', rcd)) :
    rcd = { r with id := some st.nextRecordId } ∧
    st'.warehouses = st.warehouses ∧ st'.products = st.products ∧
    st'.now = st.now ∧ st'.nowDate = st.nowDate ∧
    st'.stock_records = st.stock_records ++ [rcd] ∧
    ∃ nid, updateInventoryTx st.inventory st.nextInvId rcd isIn = .ok (st'.inventory, nid) := by
  unfold txAppendAndApply at h
  simp only [] at h
  split at h
  · cases h
  · next inv' nid heq =>
    cases h
    exact ⟨rfl, rfl, rfl, rfl, rfl, rfl, nid, heq⟩

/-- Successful `add_in_stock` decomposed: for some document number outcome the
validated, totalled record went through the transaction tail. -/
theorem addInStockE_ok {st : DBState} {r0 : StockRecord} {st' : DBState} {rcd : StockRecord}
    (h : addInStockE st r0 = .ok (st', rcd)) :
    ∃ x : Option String,
      (validateStockRecord st.now { r0 with record_type := some 1, record_no := x }).1 = true ∧
      txAppendAndApply st
        (calcTotalAmount { r0 with record_type := some 1, record_no := x }) true
        = .ok (st', rcd) := by
  unfold addInStockE at h
  simp only [] at h
  split at h
  · cases h
  · next r2 heq =>
    split at h
    · cases h
    · next hval =>
      split at h
      · cases h
      · next hrc =>
        split at heq
        · next ht =>
          cases heq
          exact ⟨r0.record_no, by simpa using hval, h⟩
        · next ht =>
          split at heq
          · next no hgen =>
            cases heq
            exact ⟨some no, by simpa using hval, h⟩
          · cases heq

/-- Successful `add_out_stock` decomposed. -/
theorem addOutStockE_ok {st : DBState} {r0 : StockRecord} {st' : DBState} {rcd : StockRecord}
    (h : addOutStockE st r0 = .ok (st', rcd)) :
    ∃ x : Option String,
      (validateStockRecord st.now { r0 with record_type := some 2, record_no := x }).1 = true ∧
      txAppendAndApply st
        (calcTotalAmount { r0 with record_type := some 2, record_no := x }) false
        = .ok (st', rcd) := by
  unfold addOutStockE at h
  simp only [] at h
  split at h
  · cases h
  · next r2 heq =>
    split at h
    · cases h
    · next hval =>
      split at h
      · cases h
      · next hrc =>
        split at h
        · cases h
        · next hpre =>
          split at heq
          · next ht =>
            cases heq
            exact ⟨r0.record_no, by simpa using hval, h⟩
          · next ht =>
            split at heq
            · next no hgen =>
              cases heq
              exact ⟨some no, by simpa using hval, h⟩
            · cases heq

theorem addInStock_ok_inv {st : DBState} {r0 rcd : StockRecord}
    (h : (addInStock st r0).2 = .ok rcd) :
    addInStockE st r0 = .ok ((addInStock st r0).1, rcd) := by
  unfold addInStock at h ⊢
  split at h
  · next st' rcd' heq => cases h; simp [heq]
  · cases h

theorem addOutStock_ok_inv {st : DBState} {r0 rcd : StockRecord}
    (h : (addOutStock st r0).2 = .ok rcd) :
    addOutStockE st r0 = .ok ((addOutStock st r0).1, rcd) := by
  unfold addOutStock at h ⊢
  split at h
  · next st' rcd' heq => cases h; simp [heq]
  · cases h

/-- Shared: an outbound request over the current balance dies at the
`check_stock` pre-check with the current/requested pair, and the state is
handed back untouched. -/
theorem outStock_insufficient_general (st : DBState) (r : StockRecord) (w p q : Int)
    (hw : r.warehouse_id = some w) (hp : r.product_id = some p)
    (hq : r.quantity = some q)
    (hno : truthyStr r.record_no = true)
    (hval : (validateStockRecord st.now { r with record_type := some 2 }).1 = true)
    (href : refCheck st r = .ok ())
    (hins : balanceOf w p st.inventory < q) :
    addOutStock st r = (st, .error (.insufficientStock (balanceOf w p st.inventory) q)) := by
  have hpre : stockPreCheck st r =
      .error (.insufficientStock (balanceOf w p st.inventory) q) := by
    unfold stockPreCheck checkStock balanceOf
    rw [hq, hw, hp]
    simp only []
    cases hrow : findInvRow st.inventory (some w) (some p) with
    | none => simp
    | some row =>
      have : ¬ (q ≤ row.quantity) := by
        have hb : balanceOf w p st.inventory = row.quantity := by
          unfold balanceOf; rw [hrow]
        omega
      simp [this]
  have hE : addOutStockE st r =
      .error (.insufficientStock (balanceOf w p st.inventory) q) := by
    unfold addOutStockE
    simp only [hno, if_true, Bool.not_eq_true]
    simp only [hval, Bool.not_true, Bool.false_eq_true, if_false]
    rw [refCheck_record_type, href]
    simp only []
    rw [stockPreCheck_record_type, hpre]
  unfold addOutStock
  rw [hE]

/-- Claim C2: an outbound request whose quantity strictly exceeds the current
balance quantity (0 when no row exists) fails with the insufficient-stock
error carrying both the current and the requested quantity, and neither the
ledger nor the inventory changes. -/
theorem c2_out_insufficient (st : DBState) (r : StockRecord) (w p q : Int)
    (hw : r.warehouse_id = some w) (hp : r.product_id = some p)
    (hq : r.quantity = some q)
    (hno : truthyStr r.record_no = true)
    (hval : (validateStockRecord st.now { r with record_type := some 2 }).1 = true)
    (href : refCheck st r = .ok ())
    (hins : balanceOf w p st.inventory < q) :
    addOutStock st r = (st, .error (.insufficientStock (balanceOf w p st.inventory) q)) :=
  outStock_insufficient_general st r w p q hw hp hq hno hval href hins

/-- Claim C2 witness: three units on hand, five requested. -/
theorem c2_out_insufficient_witness :
    addOutStock stockedState outReq5 = (stockedState, .error (.insufficientStock 3 5)) := by
  have h := c2_out_insufficient stockedState outReq5 1 7 5 rfl rfl rfl (by decide)
    (by decide) (by decide) (by decide)
  simpa using h

/-- Claim C3 counterexample: outbound against a pair with no inventory row is
rejected by the pre-check with the insufficient-stock error (current 0), not
with the distinct no-balance error the claim requires; the `noBalanceRow`
branch of the transaction update is unreachable from `add_out_stock`. -/
theorem c3_counterexample :
    (addOutStock baseState outReq5).2 = .error (.insufficientStock 0 5) ∧
    (addOutStock baseState outReq5).2 ≠ .error .noBalanceRow := by decide

/-- Claim C3 amended: outbound against a (warehouse, product) pair with no
inventory row fails with the insufficient-stock error reporting current
quantity 0 and the requested quantity (the distinct no-balance branch exists
only inside `_update_inventory_in_transaction` and is shadowed by the
`check_stock` pre-check), and persists nothing to either table. -/
theorem c3_out_no_row (st : DBState) (r : StockRecord) (w p q : Int)
    (hw : r.warehouse_id = some w) (hp : r.product_id = some p)
    (hq : r.quantity = some q)
    (hno : truthyStr r.record_no = true)
    (hval : (validateStockRecord st.now { r with record_type := some 2 }).1 = true)
    (href : refCheck st r = .ok ())
    (hrow : findInvRow st.inventory (some w) (some p) = none) :
    addOutStock st r = (st, .error (.insufficientStock 0 q)) := by
  have hbal : balanceOf w p st.inventory = 0 := by
    unfold balanceOf; rw [hrow]
  have hqpos : 0 < q := by
    obtain ⟨-, -, -, -, ⟨q', hq', hpos⟩, -, -⟩ := validate_parts hval
    have : r.quantity = some q' := hq'
    rw [hq] at this
    cases this
    exact hpos
  have h := outStock_insufficient_general st r w p q hw hp hq hno hval href (by omega)
  rwa [hbal] at h

/-- Claim C3 amended witness: empty inventory, five requested. -/
theorem c3_out_no_row_witness :
    addOutStock baseState outReq5 = (baseState, .error (.insufficientStock 0 5)) :=
  c3_out_no_row baseState outReq5 1 7 5 rfl rfl rfl (by decide) (by decide)
    (by decide) rfl

/-- The reference check only ever fails with one of the four reference errors. -/
theorem refCheck_error_kind {st : DBState} {r : StockRecord} {e : StockErr}
    (h : refCheck st r = .error e) : isRefErr e := by
  unfold refCheck at h
  split at h
  · cases h; exact Or.inl rfl
  · next w hfw =>
    split at h
    · cases h; exact Or.inr (Or.inl rfl)
    · split at h
      · cases h; exact Or.inr (Or.inr (Or.inl rfl))
      · next p hfp =>
        split at h
        · cases h; exact Or.inr (Or.inr (Or.inr rfl))
        · cases h

/-- Claim C6: when the referenced warehouse or product is missing or not
active, both flows abort with the corresponding reference error before any
transaction work, and the state (both tables included) is returned untouched. -/
theorem c6_ref_error (st : DBState) (r : StockRecord) (e : StockErr)
    (hno : truthyStr r.record_no = true)
    (hv1 : (validateStockRecord st.now { r with record_type := some 1 }).1 = true)
    (hv2 : (validateStockRecord st.now { r with record_type := some 2 }).1 = true)
    (href : refCheck st r = .error e) :
    isRefErr e ∧ addInStock st r = (st, .error e) ∧ addOutStock st r = (st, .error e) := by
  refine ⟨refCheck_error_kind href, ?_, ?_⟩
  · have hE : addInStockE st r = .error e := by
      unfold addInStockE
      simp only [hno, if_true, Bool.not_eq_true]
      simp only [hv1, Bool.not_true, Bool.false_eq_true, if_false]
      rw [refCheck_record_type, href]
    unfold addInStock
    rw [hE]
  · have hE : addOutStockE st r = .error e := by
      unfold addOutStockE
      simp only [hno, if_true, Bool.not_eq_true]
      simp only [hv2, Bool.not_true, Bool.false_eq_true, if_false]
      rw [refCheck_record_type, href]
    unfold addOutStock
    rw [hE]

/-- Claim C6 witness: warehouse 1 disabled. -/
theorem c6_ref_error_witness :
    isRefErr .warehouseDisabled ∧
    addInStock disabledState outReq5 = (disabledState, .error .warehouseDisabled) ∧
    addOutStock disabledState outReq5 = (disabledState, .error .warehouseDisabled) :=
  c6_ref_error disabledState outReq5 .warehouseDisabled (by decide) (by decide)
    (by decide) (by decide)

/-- Claim C4 counterexample: with unit price 0 the caller-supplied total of 999
is persisted unchanged — the claim's promised recomputation to 0 does not
happen, because `calculate_total_amount` only assigns when the price is
truthy. -/
theorem c4_counterexample :
    (addInStock baseState zeroPriceReq).2 =
      .ok { zeroPriceReq with record_type := some 1, id := some 1 } ∧
    ({ zeroPriceReq with record_type := some 1, id := some 1 } : StockRecord).total_amount
      = some 999 ∧
    some (999 : Rat) ≠ some (0 : Rat) := by decide

/-- Claim C4 amended: for every accepted request, the stored total equals
quantity × unit price whenever the unit price is present and nonzero,
regardless of the caller-supplied total; when the unit price is absent or
zero, the caller-supplied `total_amount` is stored unchanged (no
recomputation happens). -/
theorem c4_total_amount (st : DBState) (r rcd : StockRecord)
    (h : (addInStock st r).2 = .ok rcd ∨ (addOutStock st r).2 = .ok rcd) :
    (∀ q u, r.quantity = some q → r.unit_price = some u → u ≠ 0 →
        rcd.total_amount = some ((q : Rat) * u)) ∧
    (r.unit_price = none ∨ r.unit_price = some 0 → rcd.total_amount = r.total_amount) := by
  have key : ∀ (x : Option String) (t : Option Int),
      (validateStockRecord st.now { r with record_type := t, record_no := x }).1 = true →
      rcd = { calcTotalAmount { r with record_type := t, record_no := x }
                with id := some st.nextRecordId } →
      (∀ q u, r.quantity = some q → r.unit_price = some u → u ≠ 0 →
          rcd.total_amount = some ((q : Rat) * u)) ∧
      (r.unit_price = none ∨ r.unit_price = some 0 →
          rcd.total_amount = r.total_amount) := by
    intro x t hval hrcd
    have htot : rcd.total_amount =
        (calcTotalAmount { r with record_type := t, record_no := x }).total_amount := by
      rw [hrcd]
    constructor
    · intro q u hq hu hu0
      have hq0 : q ≠ 0 := by
        obtain ⟨-, -, -, -, ⟨q', hq', hpos⟩, -, -⟩ := validate_parts hval
        have hq'' : r.quantity = some q' := hq'
        rw [hq] at hq''
        cases hq''
        omega
      rw [htot]
      unfold calcTotalAmount
      have hcond : (truthyInt ({ r with record_type := t, record_no := x } :
          StockRecord).quantity &&
          truthyRat ({ r with record_type := t, record_no := x } :
          StockRecord).unit_price) = true := by
        simp [truthyInt, truthyRat, hq, hu, hq0, hu0]
      rw [if_pos hcond]
      simp [hq, hu]
    · intro hcase
      rw [htot]
      unfold calcTotalAmount
      have hcond : (truthyInt ({ r with record_type := t, record_no := x } :
          StockRecord).quantity &&
          truthyRat ({ r with record_type := t, record_no := x } :
          StockRecord).unit_price) = false := by
        rcases hcase with hnone | hzero
        · simp [truthyRat, hnone]
        · simp [truthyRat, hzero]
      rw [hcond]
      simp
  rcases h with h | h
  · obtain ⟨x, hval, htx⟩ := addInStockE_ok (addInStock_ok_inv h)
    obtain ⟨hrcd, -, -, -, -, -, -⟩ := txAppendAndApply_ok htx
    exact key x (some 1) hval hrcd
  · obtain ⟨x, hval, htx⟩ := addOutStockE_ok (addOutStock_ok_inv h)
    obtain ⟨hrcd, -, -, -, -, -, -⟩ := txAppendAndApply_ok htx
    exact key x (some 2) hval hrcd

/-- Claim C4 amended witness: the zero-price request stores the caller total. -/
theorem c4_total_amount_witness :
    ({ zeroPriceReq with record_type := some 1, id := some 1 } : StockRecord).total_amount
      = zeroPriceReq.total_amount := by
  have h := (c4_total_amount baseState zeroPriceReq
      { zeroPriceReq with record_type := some 1, id := some 1 }
      (Or.inl (by decide))).2 (Or.inr rfl)
  exact h

/-- On records whose type is already set to 1 or 2, the source validation
produces exactly the claim's violated-field message list. -/
theorem validate_eq_specC5 (now : Int) (r : StockRecord)
    (ht : r.record_type = some 1 ∨ r.record_type = some 2) :
    (validateStockRecord now r).2 = specC5Msgs now r := by
  have g1 : (if validateNotEmpty r.record_no then [] else ["单据号不能为空"]) =
      (match r.record_no with
        | none => ["单据号不能为空"]
        | some s => if s.data.all Char.isWhitespace then ["单据号不能为空"] else []) := by
    cases r.record_no with
    | none => rfl
    | some s =>
      unfold validateNotEmpty
      cases hb : s.data.all Char.isWhitespace <;> simp [hb]
  have g3 : (if truthyInt r.warehouse_id then [] else ["仓库ID不能为空"]) =
      (match r.warehouse_id with
        | none => ["仓库ID不能为空"]
        | some w => if w = 0 then ["仓库ID不能为空"] else []) := by
    cases r.warehouse_id with
    | none => rfl
    | some w =>
      unfold truthyInt
      by_cases hb : w = 0 <;> simp [hb]
  have g4 : (if truthyInt r.product_id then [] else ["货品ID不能为空"]) =
      (match r.product_id with
        | none => ["货品ID不能为空"]
        | some v => if v = 0 then ["货品ID不能为空"] else []) := by
    cases r.product_id with
    | none => rfl
    | some v =>
      unfold truthyInt
      by_cases hb : v = 0 <;> simp [hb]
  unfold validateStockRecord specC5Msgs
  simp only [if_pos ht, g1, g3, g4, List.append_nil, List.nil_append]

theorem validate_fst_isEmpty (now : Int) (r : StockRecord) :
    (validateStockRecord now r).1 = (validateStockRecord now r).2.isEmpty := rfl

/-- Claim C5 amended: with a truthy (non-empty, not auto-replaced) document
number, validation fails exactly when one of the claim's conditions holds —
whitespace-only document number, missing warehouse id, missing product id,
non-positive or missing quantity, negative present unit price, missing or
future occurred-at date — and then both flows raise a validation error
carrying all violated-field messages and persist nothing; with no violation
the request passes validation. (An absent or empty document number is replaced
by a generated one before validation, so it alone cannot fail; see the
counterexample.) -/
theorem c5_validation (st : DBState) (r : StockRecord)
    (hno : truthyStr r.record_no = true) :
    ((validateStockRecord st.now { r with record_type := some 1 }).2 =
        specC5Msgs st.now r ∧
      ((validateStockRecord st.now { r with record_type := some 1 }).1 = true ↔
        specC5Msgs st.now r = [])) ∧
    (specC5Msgs st.now r ≠ [] →
      addInStock st r = (st, .error (.validationFailed (specC5Msgs st.now r))) ∧
      addOutStock st r = (st, .error (.validationFailed (specC5Msgs st.now r)))) := by
  have heq1 : (validateStockRecord st.now { r with record_type := some 1 }).2 =
      specC5Msgs st.now r :=
    validate_eq_specC5 st.now { r with record_type := some 1 } (Or.inl rfl)
  have heq2 : (validateStockRecord st.now { r with record_type := some 2 }).2 =
      specC5Msgs st.now r :=
    validate_eq_specC5 st.now { r with record_type := some 2 } (Or.inr rfl)
  have hiff : (validateStockRecord st.now { r with record_type := some 1 }).1 = true ↔
      specC5Msgs st.now r = [] := by
    rw [validate_fst_isEmpty, heq1, List.isEmpty_eq_true]
  refine ⟨⟨heq1, hiff⟩, ?_⟩
  intro hne
  have hv1 : (validateStockRecord st.now { r with record_type := some 1 }).1 = false := by
    cases hb : (validateStockRecord st.now { r with record_type := some 1 }).1
    · rfl
    · exact absurd (hiff.mp hb) hne
  have hv2 : (validateStockRecord st.now { r with record_type := some 2 }).1 = false := by
    have hiff2 : (validateStockRecord st.now { r with record_type := some 2 }).1 = true ↔
        specC5Msgs st.now r = [] := by
      rw [validate_fst_isEmpty, heq2, List.isEmpty_eq_true]
    cases hb : (validateStockRecord st.now { r with record_type := some 2 }).1
    · rfl
    · exact absurd (hiff2.mp hb) hne
  constructor
  · have hE : addInStockE st r =
        .error (.validationFailed (specC5Msgs st.now r)) := by
      unfold addInStockE
      simp only [hno, if_true, hv1, Bool.not_false, ite_true, heq1]
    unfold addInStock
    rw [hE]
  · have hE : addOutStockE st r =
        .error (.validationFailed (specC5Msgs st.now r)) := by
      unfold addOutStockE
      simp only [hno, if_true, hv2, Bool.not_false, ite_true, heq2]
    unfold addOutStock
    rw [hE]

/-- Claim C5 amended witness: a request violating four rules at once is
rejected with all four messages. -/
theorem c5_validation_witness :
    addInStock baseState badReq =
      (baseState, .error (.validationFailed
        ["单据号不能为空", "数量必须大于0", "单价不能小于0", "操作日期不能为空"])) := by
  have h := ((c5_validation baseState badReq (by decide)).2 (by decide)).1
  exact h

/-- Claim C5 counterexample: a request whose document number is empty (absent)
does not fail validation — the number is auto-generated and the inbound post
succeeds, contradicting the claim that any such request fails with a
validation error and persists nothing. -/
theorem c5_counterexample :
    (addInStock baseState noNoReq).2 =
      .ok { noNoReq with record_type := some 1,
                         record_no := some "RK202501010001", id := some 1 } := by decide

theorem updateInventoryTx_in_ok {inv : List InventoryRow} {nid : Nat}
    {r : StockRecord} {inv' : List InventoryRow} {nid' : Nat} {w p q : Int}
    (hw : r.warehouse_id = some w) (hp : r.product_id = some p)
    (hq : r.quantity = some q)
    (h : updateInventoryTx inv nid r true = .ok (inv', nid')) :
    (∃ e, findInvRow inv (some w) (some p) = some e ∧
      inv' = inv.map (fun row =>
        if rowMatches (some w) (some p) row then
          { row with quantity := e.quantity + q, last_in_date := r.record_date }
        else row)) ∨
    (findInvRow inv (some w) (some p) = none ∧
      inv' = inv ++ [{ id := nid, warehouse_id := w, product_id := p, quantity := q,
                       last_in_date := r.record_date, last_out_date := none }]) := by
  unfold updateInventoryTx at h
  rw [hw, hp, hq] at h
  split at h
  · next e he =>
    simp only [if_pos rfl] at h
    cases h
    exact Or.inl ⟨e, he, rfl⟩
  · next he =>
    simp only [Bool.not_true, Bool.false_eq_true, if_false] at h
    cases h
    exact Or.inr ⟨he, rfl⟩

theorem updateInventoryTx_out_ok {inv : List InventoryRow} {nid : Nat}
    {r : StockRecord} {inv' : List InventoryRow} {nid' : Nat} {w p q : Int}
    (hw : r.warehouse_id = some w) (hp : r.product_id = some p)
    (hq : r.quantity = some q)
    (h : updateInventoryTx inv nid r false = .ok (inv', nid')) :
    ∃ e, findInvRow inv (some w) (some p) = some e ∧ 0 ≤ e.quantity - q ∧
      inv' = inv.map (fun row =>
        if rowMatches (some w) (some p) row then
          { row with quantity := e.quantity - q, last_out_date := r.record_date }
        else row) := by
  unfold updateInventoryTx at h
  rw [hw, hp, hq] at h
  split at h
  · next e he =>
    simp only [Bool.false_eq_true, if_false] at h
    split at h
    · cases h
    · next hng =>
      cases h
      exact ⟨e, he, by omega, rfl⟩
  · simp only [Bool.not_false, if_true] at h
    cases h

/-- A movement on a different (warehouse, product) pair leaves this pair's
rows untouched. -/
theorem updateInventoryTx_other_pair {inv : List InventoryRow} {nid : Nat}
    {r : StockRecord} {isIn : Bool} {inv' : List InventoryRow} {nid' : Nat}
    (w p : Int) {w' p' q : Int}
    (hw : r.warehouse_id = some w') (hp : r.product_id = some p')
    (hq : r.quantity = some q)
    (hne : isForPair w p r = false)
    (h : updateInventoryTx inv nid r isIn = .ok (inv', nid')) :
    rowsFor w p inv' = rowsFor w p inv := by
  have hpair : ¬ (w' = w ∧ p' = p) := by
    intro ⟨h1, h2⟩
    unfold isForPair at hne
    rw [hw, hp, h1, h2] at hne
    simp at hne
  have hother : ∀ row : InventoryRow, rowMatches (some w) (some p) row = true →
      rowMatches (some w') (some p') row = false := by
    intro row hm
    unfold rowMatches at hm ⊢
    simp only [Bool.and_eq_true, beq_iff_eq] at hm
    obtain ⟨h1, h2⟩ := hm
    rw [← h1, ← h2]
    by_cases hww : w' = w
    · have hpp : ¬ p' = p := fun hpp => hpair ⟨hww, hpp⟩
      simp [hww, hpp]
    · simp [hww]
  have hmap : ∀ (f : InventoryRow → InventoryRow),
      (∀ row, rowMatches (some w) (some p) (f row) = rowMatches (some w) (some p) row) →
      (∀ row, rowMatches (some w') (some p') row = false → f row = row) →
      rowsFor w p (inv.map f) = rowsFor w p inv := by
    intro f hpres hid
    rw [rowsFor_map w p f hpres inv]
    have : ∀ row ∈ rowsFor w p inv, f row = row := by
      intro row hrow
      unfold rowsFor at hrow
      exact hid row (hother row (List.mem_filter.mp hrow).2)
    calc (rowsFor w p inv).map f = (rowsFor w p inv).map id :=
          List.map_congr_left (fun a ha => this a ha)
      _ = rowsFor w p inv := List.map_id _
  unfold updateInventoryTx at h
  rw [hw, hp, hq] at h
  split at h
  · next e he =>
    cases isIn
    · simp only [Bool.false_eq_true, if_false] at h
      split at h
      · cases h
      · cases h
        refine hmap _ (fun row => ?_) (fun row hrow => ?_)
        · by_cases hm : rowMatches (some w') (some p') row = true
          · rw [if_pos hm]; rfl
          · rw [if_neg hm]
        · rw [hrow]; simp
    · simp only [if_pos rfl] at h
      cases h
      refine hmap _ (fun row => ?_) (fun row hrow => ?_)
      · by_cases hm : rowMatches (some w') (some p') row = true
        · rw [if_pos hm]; rfl
        · rw [if_neg hm]
      · rw [hrow]; simp
  · next he =>
    cases isIn
    · simp only [Bool.not_false, if_true] at h
      cases h
    · simp only [Bool.not_true, Bool.false_eq_true, if_false] at h
      cases h
      rw [rowsFor_append]
      have hnew : ∀ nrow : InventoryRow, nrow.warehouse_id = w' → nrow.product_id = p' →
          rowsFor w p [nrow] = [] := by
        intro nrow h1 h2
        unfold rowsFor rowMatches
        simp only [List.filter_cons, List.filter_nil]
        rw [if_neg]
        simp only [Bool.and_eq_true, beq_iff_eq, Option.some.injEq, not_and]
        intro ha hb
        rw [h1] at ha
        rw [h2] at hb
        exact hpair ⟨ha.symm, hb.symm⟩
      rw [hnew _ rfl rfl, List.append_nil]

/-- The filter over a singleton list of a matching row. -/
theorem rowsFor_singleton_match (w p : Int) (row : InventoryRow)
    (h : rowMatches (some w) (some p) row = true) :
    rowsFor w p [row] = [row] := by
  unfold rowsFor
  rw [List.filter_cons, if_pos h, List.filter_nil]

/-- The update functions of the transaction never change a row's pair. -/
theorem rowMatches_of_quantity_update (w p : Int) (wid pid : Option Int)
    (qf : InventoryRow → Int) (inf outf : InventoryRow → Option Int) :
    ∀ row : InventoryRow, rowMatches (some w) (some p)
      (if rowMatches wid pid row then
        { row with quantity := qf row, last_in_date := inf row,
                   last_out_date := outf row }
      else row) = rowMatches (some w) (some p) row := by
  intro row
  by_cases hm : rowMatches wid pid row = true
  · rw [if_pos hm]; rfl
  · rw [if_neg hm]

/-- A successful inbound post preserves the pair invariant. -/
theorem pairInv_in_step (w p : Int) (st : DBState) (r : StockRecord)
    (h : PairInv w p st) : PairInv w p (addInStock st r).1 := by
  cases hE : addInStockE st r with
  | error e =>
    have hst : (addInStock st r).1 = st := by unfold addInStock; rw [hE]
    rw [hst]; exact h
  | ok res =>
    obtain ⟨st', rcd⟩ := res
    have hst : (addInStock st r).1 = st' := by unfold addInStock; rw [hE]
    rw [hst]
    obtain ⟨x, hval, htx⟩ := addInStockE_ok hE
    obtain ⟨hrcd, hwa, hpr, hnow, hnd, hled, nid, hupd⟩ := txAppendAndApply_ok htx
    obtain ⟨-, -, hwt, hpt, ⟨q, hq, hqpos⟩, -, -⟩ := validate_parts hval
    have hty : rcd.record_type = some 1 := by
      rw [hrcd]; simp [calcTotalAmount_record_type]
    have hcq : rcd.quantity = some q := by
      rw [hrcd]
      simp only [calcTotalAmount_quantity]
      exact hq
    have hwt' : truthyInt r.warehouse_id = true := hwt
    have hpt' : truthyInt r.product_id = true := hpt
    obtain ⟨w0, hw0⟩ : ∃ w0, r.warehouse_id = some w0 := by
      cases hc : r.warehouse_id
      · rw [hc] at hwt'; exact absurd hwt' (by simp [truthyInt])
      · exact ⟨_, rfl⟩
    obtain ⟨p0, hp0⟩ : ∃ p0, r.product_id = some p0 := by
      cases hc : r.product_id
      · rw [hc] at hpt'; exact absurd hpt' (by simp [truthyInt])
      · exact ⟨_, rfl⟩
    have hcw : rcd.warehouse_id = some w0 := by
      rw [hrcd]
      simp only [calcTotalAmount_warehouse_id]
      exact hw0
    have hcp : rcd.product_id = some p0 := by
      rw [hrcd]
      simp only [calcTotalAmount_product_id]
      exact hp0
    have hqrcd : qtyOf rcd = q := by unfold qtyOf; rw [hcq]; rfl
    have hin : inboundSum w p st'.stock_records =
        inboundSum w p st.stock_records +
          (if isForPair w p rcd && rcd.record_type == some 1 then qtyOf rcd else 0) := by
      rw [hled, inboundSum_append_single]
    have hout : outboundSum w p st'.stock_records =
        outboundSum w p st.stock_records +
          (if isForPair w p rcd && rcd.record_type == some 2 then qtyOf rcd else 0) := by
      rw [hled, outboundSum_append_single]
    by_cases hfp : isForPair w p rcd = true
    · have hww : w0 = w ∧ p0 = p := by
        unfold isForPair at hfp
        rw [hcw, hcp] at hfp
        simpa using hfp
      obtain ⟨hww1, hww2⟩ := hww
      rw [hww1] at hcw
      rw [hww2] at hcp
      have hin' : inboundSum w p st'.stock_records =
          inboundSum w p st.stock_records + q := by
        rw [hin, if_pos (by rw [hfp, hty]; rfl), hqrcd]
      have hout' : outboundSum w p st'.stock_records =
          outboundSum w p st.stock_records := by
        rw [hout, if_neg (by rw [hty]; simp), add_zero]
      rcases updateInventoryTx_in_ok hcw hcp hcq hupd with
        ⟨e, hfind, hinv'⟩ | ⟨hfind, hinv'⟩
      · -- existing row updated
        rcases h with ⟨hrows, hsums⟩ | ⟨row, hrows, hge, hqty⟩
        · rw [findInvRow_eq_head, hrows] at hfind
          cases hfind
        · rw [findInvRow_eq_head, hrows] at hfind
          have he : e = row := by cases hfind; rfl
          rw [he] at hinv'
          have hmrow : rowMatches (some w) (some p) row = true := by
            have : row ∈ rowsFor w p st.inventory := by rw [hrows]; exact List.mem_singleton.mpr rfl
            exact (List.mem_filter.mp this).2
          have hrows' : rowsFor w p st'.inventory =
              [{ row with quantity := row.quantity + q, last_in_date := rcd.record_date }] := by
            rw [hinv', rowsFor_map w p _
              (rowMatches_of_quantity_update w p (some w) (some p) _ _ _), hrows,
              List.map_cons, List.map_nil, if_pos hmrow]
          refine Or.inr ⟨_, hrows', ?_, ?_⟩
          · simp only
            omega
          · simp only
            rw [hin', hout']
            omega
      · -- row created
        rcases h with ⟨hrows, hsums⟩ | ⟨row, hrows, hge, hqty⟩
        · have hrows' : rowsFor w p st'.inventory =
              [{ id := st.nextInvId, warehouse_id := w, product_id := p, quantity := q,
                 last_in_date := rcd.record_date, last_out_date := none }] := by
            rw [hinv', rowsFor_append, hrows, List.nil_append]
            exact rowsFor_singleton_match w p _ (by unfold rowMatches; simp)
          refine Or.inr ⟨_, hrows', ?_, ?_⟩
          · simp only
            omega
          · simp only
            rw [hin', hout']
            omega
        · rw [findInvRow_eq_head, hrows] at hfind
          cases hfind
    · have hfp' : isForPair w p rcd = false := by
        cases hb : isForPair w p rcd
        · rfl
        · exact absurd hb hfp
      have hin' : inboundSum w p st'.stock_records = inboundSum w p st.stock_records := by
        rw [hin, if_neg (by rw [hfp']; simp), add_zero]
      have hout' : outboundSum w p st'.stock_records = outboundSum w p st.stock_records := by
        rw [hout, if_neg (by rw [hfp']; simp), add_zero]
      have hrows' : rowsFor w p st'.inventory = rowsFor w p st.inventory :=
        updateInventoryTx_other_pair w p hcw hcp hcq hfp' hupd
      unfold PairInv
      rw [hin', hout', hrows']
      exact h

/-- A successful outbound post preserves the pair invariant. -/
theorem pairInv_out_step (w p : Int) (st : DBState) (r : StockRecord)
    (h : PairInv w p st) : PairInv w p (addOutStock st r).1 := by
  cases hE : addOutStockE st r with
  | error e =>
    have hst : (addOutStock st r).1 = st := by unfold addOutStock; rw [hE]
    rw [hst]; exact h
  | ok res =>
    obtain ⟨st', rcd⟩ := res
    have hst : (addOutStock st r).1 = st' := by unfold addOutStock; rw [hE]
    rw [hst]
    obtain ⟨x, hval, htx⟩ := addOutStockE_ok hE
    obtain ⟨hrcd, hwa, hpr, hnow, hnd, hled, nid, hupd⟩ := txAppendAndApply_ok htx
    obtain ⟨-, -, hwt, hpt, ⟨q, hq, hqpos⟩, -, -⟩ := validate_parts hval
    have hty : rcd.record_type = some 2 := by
      rw [hrcd]; simp [calcTotalAmount_record_type]
    have hcq : rcd.quantity = some q := by
      rw [hrcd]
      simp only [calcTotalAmount_quantity]
      exact hq
    have hwt' : truthyInt r.warehouse_id = true := hwt
    have hpt' : truthyInt r.product_id = true := hpt
    obtain ⟨w0, hw0⟩ : ∃ w0, r.warehouse_id = some w0 := by
      cases hc : r.warehouse_id
      · rw [hc] at hwt'; exact absurd hwt' (by simp [truthyInt])
      · exact ⟨_, rfl⟩
    obtain ⟨p0, hp0⟩ : ∃ p0, r.product_id = some p0 := by
      cases hc : r.product_id
      · rw [hc] at hpt'; exact absurd hpt' (by simp [truthyInt])
      · exact ⟨_, rfl⟩
    have hcw : rcd.warehouse_id = some w0 := by
      rw [hrcd]
      simp only [calcTotalAmount_warehouse_id]
      exact hw0
    have hcp : rcd.product_id = some p0 := by
      rw [hrcd]
      simp only [calcTotalAmount_product_id]
      exact hp0
    have hqrcd : qtyOf rcd = q := by unfold qtyOf; rw [hcq]; rfl
    have hin : inboundSum w p st'.stock_records =
        inboundSum w p st.stock_records +
          (if isForPair w p rcd && rcd.record_type == some 1 then qtyOf rcd else 0) := by
      rw [hled, inboundSum_append_single]
    have hout : outboundSum w p st'.stock_records =
        outboundSum w p st.stock_records +
          (if isForPair w p rcd && rcd.record_type == some 2 then qtyOf rcd else 0) := by
      rw [hled, outboundSum_append_single]
    by_cases hfp : isForPair w p rcd = true
    · have hww : w0 = w ∧ p0 = p := by
        unfold isForPair at hfp
        rw [hcw, hcp] at hfp
        simpa using hfp
      obtain ⟨hww1, hww2⟩ := hww
      rw [hww1] at hcw
      rw [hww2] at hcp
      have hin' : inboundSum w p st'.stock_records =
          inboundSum w p st.stock_records := by
        rw [hin, if_neg (by rw [hty]; simp), add_zero]
      have hout' : outboundSum w p st'.stock_records =
          outboundSum w p st.stock_records + q := by
        rw [hout, if_pos (by rw [hfp, hty]; rfl), hqrcd]
      obtain ⟨e, hfind, hge, hinv'⟩ := updateInventoryTx_out_ok hcw hcp hcq hupd
      rcases h with ⟨hrows, hsums⟩ | ⟨row, hrows, hge0, hqty⟩
      · rw [findInvRow_eq_head, hrows] at hfind
        cases hfind
      · rw [findInvRow_eq_head, hrows] at hfind
        have he : e = row := by cases hfind; rfl
        rw [he] at hinv' hge
        have hmrow : rowMatches (some w) (some p) row = true := by
          have : row ∈ rowsFor w p st.inventory := by
            rw [hrows]; exact List.mem_singleton.mpr rfl
          exact (List.mem_filter.mp this).2
        have hrows' : rowsFor w p st'.inventory =
            [{ row with quantity := row.quantity - q, last_out_date := rcd.record_date }] := by
          rw [hinv', rowsFor_map w p _
            (rowMatches_of_quantity_update w p (some w) (some p) _ _ _), hrows,
            List.map_cons, List.map_nil, if_pos hmrow]
        refine Or.inr ⟨_, hrows', ?_, ?_⟩
        · simp only
          omega
        · simp only
          rw [hin', hout']
          omega
    · have hfp' : isForPair w p rcd = false := by
        cases hb : isForPair w p rcd
        · rfl
        · exact absurd hb hfp
      have hin' : inboundSum w p st'.stock_records = inboundSum w p st.stock_records := by
        rw [hin, if_neg (by rw [hfp']; simp), add_zero]
      have hout' : outboundSum w p st'.stock_records = outboundSum w p st.stock_records := by
        rw [hout, if_neg (by rw [hfp']; simp), add_zero]
      have hrows' : rowsFor w p st'.inventory = rowsFor w p st.inventory :=
        updateInventoryTx_other_pair w p hcw hcp hcq hfp' hupd
      unfold PairInv
      rw [hin', hout', hrows']
      exact h

/-- Claim C1: starting from a state with no inventory row and no ledger
records for a (warehouse, product) pair, after any sequence of posted inbound
and outbound requests — where a raising request rolls back and changes
nothing — the balance read for the pair equals the sum of committed inbound
quantities minus the sum of committed outbound quantities, and is never
negative. -/
theorem c1_balance_invariant (st0 : DBState) (ops : List StockOp) (w p : Int)
    (hrow : rowsFor w p st0.inventory = [])
    (hled : recordsFor w p st0.stock_records = []) :
    balanceOf w p (runOps st0 ops).inventory =
      inboundSum w p (runOps st0 ops).stock_records -
        outboundSum w p (runOps st0 ops).stock_records ∧
    0 ≤ balanceOf w p (runOps st0 ops).inventory := by
  have hin0 : inboundSum w p st0.stock_records = 0 := by
    unfold inboundSum; rw [hled]; rfl
  have hout0 : outboundSum w p st0.stock_records = 0 := by
    unfold outboundSum; rw [hled]; rfl
  have hinv0 : PairInv w p st0 := Or.inl ⟨hrow, by rw [hin0, hout0]; rfl⟩
  have hrun : ∀ (l : List StockOp) (st : DBState), PairInv w p st →
      PairInv w p (runOps st l) := by
    intro l
    induction l with
    | nil => intro st hI; exact hI
    | cons op rest ih =>
      intro st hI
      unfold runOps
      refine ih (applyOp st op) ?_
      cases op with
      | inbound r => exact pairInv_in_step w p st r hI
      | outbound r => exact pairInv_out_step w p st r hI
  have hfin := hrun ops st0 hinv0
  rcases hfin with ⟨hr, hs⟩ | ⟨row, hr, hge, hqty⟩
  · have hb : balanceOf w p (runOps st0 ops).inventory = 0 := by
      unfold balanceOf
      rw [findInvRow_eq_head, hr]
      rfl
    rw [hb]
    omega
  · have hb : balanceOf w p (runOps st0 ops).inventory = row.quantity := by
      unfold balanceOf
      rw [findInvRow_eq_head, hr]
      rfl
    rw [hb]
    exact ⟨hqty, hge⟩

/-- Claim C1 witness: inbound 100, outbound 30, then a rejected outbound 71
leave the pair at balance 70 = 100 − 30. -/
theorem c1_balance_invariant_witness :
    balanceOf 1 7 (runOps baseState c1Ops).inventory =
      inboundSum 1 7 (runOps baseState c1Ops).stock_records -
        outboundSum 1 7 (runOps baseState c1Ops).stock_records ∧
    0 ≤ balanceOf 1 7 (runOps baseState c1Ops).inventory ∧
    balanceOf 1 7 (runOps baseState c1Ops).inventory = 70 := by
  have h := c1_balance_invariant baseState c1Ops 1 7 rfl rfl
  exact ⟨h.1, h.2, by decide⟩

theorem optIntLtB_irrefl (x : Option Int) : optIntLtB x x = false := by
  cases x <;> simp [optIntLtB]

theorem optIntLtB_asymm {x y : Option Int} (h : optIntLtB x y = true) :
    optIntLtB y x = false := by
  cases x <;> cases y <;> simp [optIntLtB] at * <;> omega

theorem optIntLtB_eq_of_not {x y : Option Int} (h1 : optIntLtB x y = false)
    (h2 : optIntLtB y x = false) : x = y := by
  cases x <;> cases y <;> simp [optIntLtB] at * <;> omega

theorem optIntLtB_trans {x y z : Option Int} (h1 : optIntLtB x y = true)
    (h2 : optIntLtB y z = true) : optIntLtB x z = true := by
  cases x <;> cases y <;> cases z <;> simp [optIntLtB] at * <;> omega

theorem optNatLtB_asymm {x y : Option Nat} (h : optNatLtB x y = true) :
    optNatLtB y x = false := by
  cases x <;> cases y <;> simp [optNatLtB] at * <;> omega

theorem optNatLtB_ge_trans {x y z : Option Nat} (h1 : optNatLtB x y = false)
    (h2 : optNatLtB y z = false) : optNatLtB x z = false := by
  cases x <;> cases y <;> cases z <;> simp [optNatLtB] at * <;> omega

theorem recOrdLe_eq_true_iff (a b : StockRecord) : recOrdLe a b = true ↔
    optIntLtB b.record_date a.record_date = true ∨
    (optIntLtB b.record_date a.record_date = false ∧
      optIntLtB a.record_date b.record_date = false ∧
      optNatLtB a.id b.id = false) := by
  unfold recOrdLe
  cases h1 : optIntLtB b.record_date a.record_date <;>
    cases h2 : optIntLtB a.record_date b.record_date <;>
    cases h3 : optNatLtB a.id b.id <;> simp

theorem recOrdLe_trans (a b c : StockRecord) (hab : recOrdLe a b = true)
    (hbc : recOrdLe b c = true) : recOrdLe a c = true := by
  rcases (recOrdLe_eq_true_iff a b).mp hab with h | ⟨h1, h2, h3⟩
  · rcases (recOrdLe_eq_true_iff b c).mp hbc with g | ⟨g1, g2, g3⟩
    · exact (recOrdLe_eq_true_iff a c).mpr (Or.inl (optIntLtB_trans g h))
    · have heq : b.record_date = c.record_date := optIntLtB_eq_of_not g2 g1
      exact (recOrdLe_eq_true_iff a c).mpr (Or.inl (by rw [← heq]; exact h))
  · rcases (recOrdLe_eq_true_iff b c).mp hbc with g | ⟨g1, g2, g3⟩
    · have heq : a.record_date = b.record_date := optIntLtB_eq_of_not h2 h1
      exact (recOrdLe_eq_true_iff a c).mpr (Or.inl (by rw [heq]; exact g))
    · have heq1 : a.record_date = b.record_date := optIntLtB_eq_of_not h2 h1
      have heq2 : b.record_date = c.record_date := optIntLtB_eq_of_not g2 g1
      refine (recOrdLe_eq_true_iff a c).mpr (Or.inr ⟨?_, ?_, ?_⟩)
      · rw [heq1, heq2]; exact optIntLtB_irrefl _
      · rw [heq1, heq2]; exact optIntLtB_irrefl _
      · exact optNatLtB_ge_trans h3 g3

theorem recOrdLe_total (a b : StockRecord) :
    recOrdLe a b = true ∨ recOrdLe b a = true := by
  cases h1 : optIntLtB b.record_date a.record_date
  · cases h2 : optIntLtB a.record_date b.record_date
    · cases h3 : optNatLtB a.id b.id
      · exact Or.inl ((recOrdLe_eq_true_iff a b).mpr (Or.inr ⟨h1, h2, h3⟩))
      · exact Or.inr ((recOrdLe_eq_true_iff b a).mpr
          (Or.inr ⟨h2, h1, optNatLtB_asymm h3⟩))
    · exact Or.inr ((recOrdLe_eq_true_iff b a).mpr (Or.inl h2))
  · exact Or.inl ((recOrdLe_eq_true_iff a b).mpr (Or.inl h1))

/-- Claim C9 counterexample: the search ignores the counterparty condition —
a query asking for counterparty 1 still returns the record whose counterparty
is 2, so `search_stock_records` does not support filtering by counterparty. -/
theorem c9_counterexample :
    searchStockRecords { supplier_client_id := some 1 } [counterpartyRec]
      = [counterpartyRec] ∧
    counterpartyRec.supplier_client_id = some 2 := by decide

/-- Claim C9 amended: `search_stock_records` filters by warehouse, product,
kind, date range, document-number substring and operator substring — not by
counterparty, which the assembled WHERE clause never mentions — and for every
combination of those filters returns exactly the matching records, ordered by
`record_date DESC, id DESC` (the `recBefore` relation). -/
theorem c9_search (c : SearchConds) (ledger : List StockRecord) :
    List.Sorted recBefore (searchStockRecords c ledger) ∧
    (searchStockRecords c ledger).Perm (ledger.filter (condMatches c)) ∧
    ∀ r, r ∈ searchStockRecords c ledger ↔ r ∈ ledger ∧ condMatches c r = true := by
  have hsorted := @List.sorted_insertionSort _ recBefore decRecBefore
    ⟨fun a b => recOrdLe_total a b⟩ ⟨fun a b c hab hbc => recOrdLe_trans a b c hab hbc⟩
    (ledger.filter (condMatches c))
  have hperm := List.perm_insertionSort recBefore (ledger.filter (condMatches c))
  unfold searchStockRecords
  refine ⟨hsorted, hperm, ?_⟩
  intro r
  rw [hperm.mem_iff, List.mem_filter]

theorem charsLt_irrefl (l : List Char) : charsLt l l = false := by
  induction l with
  | nil => rfl
  | cons c t ih =>
    unfold charsLt
    rw [if_neg (lt_irrefl c), if_neg (lt_irrefl c)]
    exact ih

theorem charsLt_asymm {a b : List Char} (h : charsLt a b = true) :
    charsLt b a = false := by
  induction a generalizing b with
  | nil =>
    cases b with
    | nil => rfl
    | cons d t => rfl
  | cons c t ih =>
    cases b with
    | nil => exact absurd h (by simp [charsLt])
    | cons d s =>
      unfold charsLt at h ⊢
      by_cases hcd : c < d
      · rw [if_neg (by exact fun hdc => absurd hcd (not_lt_of_lt hdc)), if_pos hcd]
      · rw [if_neg hcd] at h
        by_cases hdc : d < c
        · rw [if_pos hdc] at h
          cases h
        · rw [if_neg hdc] at h
          rw [if_neg hdc, if_neg hcd]
          exact ih h

theorem charsLt_append (pre as bs : List Char) :
    charsLt (pre ++ as) (pre ++ bs) = charsLt as bs := by
  induction pre with
  | nil => rfl
  | cons c t ih =>
    show (if c < c then true
      else if c < c then false else charsLt (t ++ as) (t ++ bs)) = charsLt as bs
    rw [if_neg (lt_irrefl c), if_neg (lt_irrefl c)]
    exact ih

theorem padDigits_length (w n : Nat) : (padDigits w n).length = w := by
  induction w generalizing n with
  | zero => rfl
  | succ w ih => simp [padDigits, ih]

theorem digitChar_lt {i j : Nat} (hi : i < 10) (hj : j < 10) (h : i < j) :
    Nat.digitChar i < Nat.digitChar j := by
  interval_cases i <;> interval_cases j <;> first | decide | omega

theorem digitChar_isDigit {i : Nat} (hi : i < 10) : (Nat.digitChar i).isDigit = true := by
  interval_cases i <;> decide

theorem digitVal_digitChar {i : Nat} (hi : i < 10) : digitVal (Nat.digitChar i) = i := by
  interval_cases i <;> decide

theorem padDigits_lt {w a b : Nat} (hb : b < 10 ^ w) (hab : a < b) :
    charsLt (padDigits w a) (padDigits w b) = true := by
  induction w generalizing a b with
  | zero => simp at hb; omega
  | succ w ih =>
    have hpw : 0 < 10 ^ w := Nat.pos_pow_of_pos w (by omega)
    have hda : a / 10 ^ w < 10 := by
      rw [Nat.div_lt_iff_lt_mul hpw]
      calc a < b := hab
        _ < 10 ^ (w + 1) := hb
        _ = 10 * 10 ^ w := by ring
    have hdb : b / 10 ^ w < 10 := by
      rw [Nat.div_lt_iff_lt_mul hpw]
      calc b < 10 ^ (w + 1) := hb
        _ = 10 * 10 ^ w := by ring
    unfold padDigits charsLt
    by_cases hq : a / 10 ^ w < b / 10 ^ w
    · rw [if_pos (digitChar_lt hda hdb hq)]
    · have hq' : a / 10 ^ w = b / 10 ^ w := by
        have := Nat.div_le_div_right (c := 10 ^ w) (le_of_lt hab)
        omega
      rw [hq']
      rw [if_neg (lt_irrefl _), if_neg (lt_irrefl _)]
      refine ih (Nat.mod_lt b hpw) ?_
      have ha' := Nat.div_add_mod a (10 ^ w)
      have hb' := Nat.div_add_mod b (10 ^ w)
      rw [hq'] at ha'
      omega

theorem fmt04_eq_pad {n : Nat} (h : n < 10000) : fmt04 n = ⟨padDigits 4 n⟩ := by
  unfold fmt04
  rw [if_pos h]

theorem fmt04_data {n : Nat} (h : n < 10000) : (fmt04 n).data = padDigits 4 n := by
  rw [fmt04_eq_pad h]

theorem strLt_pad_iff (pfx : String) {m n : Nat} (hm : m < 10000) (hn : n < 10000) :
    strLt (pfx ++ fmt04 m) (pfx ++ fmt04 n) = true ↔ m < n := by
  unfold strLt
  rw [String.data_append, String.data_append, fmt04_data hm, fmt04_data hn,
    charsLt_append]
  constructor
  · intro h
    by_contra hc
    rcases Nat.lt_or_ge n m with hlt | hge
    · have := padDigits_lt (w := 4) (by simpa using hm) hlt
      rw [charsLt_asymm this] at h
      cases h
    · have hnm : n = m := by omega
      rw [hnm, charsLt_irrefl] at h
      cases h
  · intro h
    exact padDigits_lt (by simpa using hn) h

theorem pad_append_inj (pfx : String) {m n : Nat} (hm : m < 10000) (hn : n < 10000)
    (h : pfx ++ fmt04 m = pfx ++ fmt04 n) : m = n := by
  by_contra hc
  rcases Nat.lt_or_ge m n with hlt | hge
  · have := (strLt_pad_iff pfx hm hn).mpr hlt
    rw [h] at this
    unfold strLt at this
    rw [charsLt_irrefl] at this
    cases this
  · have hnm : n < m := by omega
    have := (strLt_pad_iff pfx hn hm).mpr hnm
    rw [h] at this
    unfold strLt at this
    rw [charsLt_irrefl] at this
    cases this

theorem padDigits_foldl {w : Nat} (acc : Nat) {n : Nat} (h : n < 10 ^ w) :
    (padDigits w n).foldl (fun a c => 10 * a + digitVal c) acc = acc * 10 ^ w + n := by
  induction w generalizing acc n with
  | zero => simp at h; simp [padDigits, h]
  | succ w ih =>
    have hpw : 0 < 10 ^ w := Nat.pos_pow_of_pos w (by omega)
    have hda : n / 10 ^ w < 10 := by
      rw [Nat.div_lt_iff_lt_mul hpw]
      calc n < 10 ^ (w + 1) := h
        _ = 10 * 10 ^ w := by ring
    unfold padDigits
    rw [List.foldl_cons, digitVal_digitChar hda, ih _ (Nat.mod_lt n hpw)]
    have := Nat.div_add_mod n (10 ^ w)
    have hpow : 10 ^ (w + 1) = 10 * 10 ^ w := by ring
    calc (10 * acc + n / 10 ^ w) * 10 ^ w + n % 10 ^ w
        = acc * (10 * 10 ^ w) + (10 ^ w * (n / 10 ^ w) + n % 10 ^ w) := by ring
      _ = acc * 10 ^ (w + 1) + n := by rw [this, ← hpow]

theorem parseDigits_pad {n : Nat} (h : n < 10000) :
    parseDigits (padDigits 4 n) = some n := by
  have hall : (padDigits 4 n).all Char.isDigit = true := by
    have : ∀ w m, m < 10 ^ w → (padDigits w m).all Char.isDigit = true := by
      intro w
      induction w with
      | zero => intro m hm; rfl
      | succ w ih =>
        intro m hm
        have hpw : 0 < 10 ^ w := Nat.pos_pow_of_pos w (by omega)
        have hda : m / 10 ^ w < 10 := by
          rw [Nat.div_lt_iff_lt_mul hpw]
          calc m < 10 ^ (w + 1) := hm
            _ = 10 * 10 ^ w := by ring
        unfold padDigits
        rw [List.all_cons, digitChar_isDigit hda, ih _ (Nat.mod_lt m hpw)]
        rfl
    exact this 4 n (by simpa using h)
  unfold parseDigits
  rw [if_pos ⟨by simp [padDigits], hall⟩]
  rw [padDigits_foldl 0 (by simpa using h)]
  simp

theorem lastChars_append_pad (pfx : String) {n : Nat} (h : n < 10000) :
    lastChars 4 (pfx ++ fmt04 n) = padDigits 4 n := by
  unfold lastChars
  rw [String.data_append, fmt04_data h]
  have hlen : (padDigits 4 n).length = 4 := padDigits_length 4 n
  have : (pfx.data ++ padDigits 4 n).length - 4 = pfx.data.length := by
    rw [List.length_append, hlen]
    omega
  rw [this]
  exact List.drop_left pfx.data (padDigits 4 n)

theorem maxStr_cons (s : String) (rest : List String) :
    maxStr (s :: rest) = match maxStr rest with
      | none => some s
      | some m => if strLt m s then some s else some m := rfl

theorem maxStr_mem : ∀ {l : List String} {u : String}, maxStr l = some u → u ∈ l := by
  intro l
  induction l with
  | nil => intro u h; cases h
  | cons s rest ih =>
    intro u h
    rw [maxStr_cons] at h
    cases hrest : maxStr rest with
    | none =>
      simp only [hrest] at h
      cases h
      exact List.mem_cons_self _ _
    | some m =>
      simp only [hrest] at h
      by_cases hlt : strLt m s = true
      · rw [if_pos hlt] at h
        cases h
        exact List.mem_cons_self _ _
      · rw [if_neg hlt] at h
        cases h
        exact List.mem_cons_of_mem _ (ih hrest)

theorem maxStr_cons_ne_none (s : String) (rest : List String) :
    maxStr (s :: rest) ≠ none := by
  rw [maxStr_cons]
  cases maxStr rest with
  | none => simp
  | some m =>
    by_cases h : strLt m s = true
    · simp [h]
    · simp [h]

/-- On a ledger whose matching numbers are all `pfx ++` four digits bounded by
an attained `n`, the SQL maximum is exactly `pfx ++ fmt04 n`. -/
theorem maxStr_wf (pfx : String) :
    ∀ (l : List String) (n : Nat), n ≤ 9999 →
      (∀ s ∈ l, ∃ m, m ≤ 9999 ∧ s = pfx ++ fmt04 m ∧ m ≤ n) →
      (pfx ++ fmt04 n) ∈ l →
      maxStr l = some (pfx ++ fmt04 n) := by
  intro l
  induction l with
  | nil => intro n _ _ hmem; cases hmem
  | cons s rest ih =>
    intro n hn hall hmem
    obtain ⟨ms, hms9, hseq, hmsn⟩ := hall s (List.mem_cons_self _ _)
    cases rest with
    | nil =>
      have hsn : s = pfx ++ fmt04 n := by
        rcases List.mem_cons.mp hmem with h | h
        · exact h.symm
        · cases h
      rw [hsn]
      rfl
    | cons r t =>
      by_cases hmr : (pfx ++ fmt04 n) ∈ r :: t
      · have hmax : maxStr (r :: t) = some (pfx ++ fmt04 n) :=
          ih n hn (fun x hx => hall x (List.mem_cons_of_mem _ hx)) hmr
        have hnot : strLt (pfx ++ fmt04 n) s = false := by
          rw [hseq]
          cases hb : strLt (pfx ++ fmt04 n) (pfx ++ fmt04 ms)
          · rfl
          · have := (strLt_pad_iff pfx (by omega) (by omega)).mp hb
            omega
        rw [maxStr_cons, hmax]
        simp [hnot]
      · have hsn : s = pfx ++ fmt04 n := by
          rcases List.mem_cons.mp hmem with h | h
          · exact h.symm
          · exact absurd h hmr
        cases hmax : maxStr (r :: t) with
        | none => exact absurd hmax (maxStr_cons_ne_none r t)
        | some m =>
          obtain ⟨mm, hmm9, hmeq, hmmn⟩ := hall m (List.mem_cons_of_mem _ (maxStr_mem hmax))
          have hmmlt : mm < n := by
            rcases Nat.lt_or_ge mm n with h | h
            · exact h
            · have : mm = n := by omega
              rw [this] at hmeq
              rw [← hmeq] at hmr
              exact absurd (maxStr_mem hmax) hmr
          have hlt : strLt m s = true := by
            rw [hmeq, hsn]
            exact (strLt_pad_iff pfx (by omega) (by omega)).mpr hmmlt
          rw [maxStr_cons, hmax]
          simp only []
          rw [if_pos hlt, hsn]

/-- `generate_record_no` expressed through the named sub-operations. -/
theorem genRecordNo_eq (st : DBState) (t : Int) :
    genRecordNo st t =
      match maxStr (matchingNos (pfxFor st t) st) with
      | none => some (pfxFor st t ++ fmt04 1)
      | some last =>
        match parseDigits (lastChars 4 last) with
        | none => none
        | some lastNum => some (pfxFor st t ++ fmt04 (lastNum + 1)) := rfl

/-- On a well-formed ledger the generator returns the prefix plus the padded
successor of the day's top sequence number (1 when nothing is stored). -/
theorem genRecordNo_wf (st : DBState) (t : Int) (n : Nat)
    (hwf : wfNos (pfxFor st t) n st) :
    genRecordNo st t = some (pfxFor st t ++ fmt04 (n + 1)) := by
  obtain ⟨hn, hall, hatt⟩ := hwf
  rw [genRecordNo_eq]
  cases hm : matchingNos (pfxFor st t) st with
  | nil =>
    have hn0 : n = 0 := by
      rcases hatt with h | h
      · exact h
      · rw [hm] at h; cases h
    rw [hn0]
    rfl
  | cons s rest =>
    have hmem : (pfxFor st t ++ fmt04 n) ∈ matchingNos (pfxFor st t) st := by
      rcases hatt with h | h
      · obtain ⟨m, hm9, hseq, hmn⟩ := hall s (by rw [hm]; exact List.mem_cons_self _ _)
        have hm0 : m = 0 := by omega
        rw [h]
        rw [hm0] at hseq
        rw [← hseq]
        rw [hm]
        exact List.mem_cons_self _ _
      · exact h
    have hmax : maxStr (matchingNos (pfxFor st t) st) =
        some (pfxFor st t ++ fmt04 n) := by
      rw [hm]
      rw [hm] at hmem
      exact maxStr_wf (pfxFor st t) (s :: rest) n hn
        (by rw [← hm]; exact hall) hmem
    have hlast := lastChars_append_pad (pfxFor st t) (n := n) (by omega)
    have hparse := parseDigits_pad (n := n) (by omega)
    rw [← hm, hmax]
    simp only [hlast, hparse]

/-- Appending the freshly generated number keeps the ledger well-formed with
the top sequence number advanced by one. -/
theorem wfNos_append (pfx : String) (n : Nat) (st : DBState)
    (hwf : wfNos pfx n st) (hn1 : n + 1 ≤ 9999) :
    wfNos pfx (n + 1) (appendNo st (pfx ++ fmt04 (n + 1))) := by
  obtain ⟨hn, hall, hatt⟩ := hwf
  have hpre : pfx.data.isPrefixOf (pfx ++ fmt04 (n + 1)).data = true := by
    rw [String.data_append]
    exact List.isPrefixOf_iff_prefix.mpr (List.prefix_append _ _)
  have hmatch : matchingNos pfx (appendNo st (pfx ++ fmt04 (n + 1))) =
      matchingNos pfx st ++ [pfx ++ fmt04 (n + 1)] := by
    unfold matchingNos recordNos appendNo
    simp only [List.filterMap_append, List.filter_append]
    congr 1
    simp only [List.filterMap_cons, List.filterMap_nil]
    rw [List.filter_cons, if_pos hpre, List.filter_nil]
  refine ⟨hn1, ?_, Or.inr ?_⟩
  · intro s hs
    rw [hmatch] at hs
    rcases List.mem_append.mp hs with hs | hs
    · obtain ⟨m, h9, heq, hmn⟩ := hall s hs
      exact ⟨m, h9, heq, by omega⟩
    · have heq : s = pfx ++ fmt04 (n + 1) := by simpa using hs
      exact ⟨n + 1, hn1, heq, le_refl _⟩
  · rw [hmatch]
    exact List.mem_append_right _ (by simp)

/-- Claim C7: `generate_record_no` builds the prefix from the two-letter kind
code and today's `YYYYMMDD` date, reads the lexicographically greatest stored
number under the prefix, parses its trailing four digits and adds one
(starting at one when nothing matches), and zero-pads the result; hence under
sequential posting, starting from a well-formed ledger whose top sequence
number is `n`, the `k` generated numbers carry exactly the consecutive
four-digit suffixes `n+1, …, n+k` — strictly increasing with no gaps. -/
theorem c7_gen_sequential (st : DBState) (t : Int) (n k : Nat)
    (hwf : wfNos (pfxFor st t) n st) (hk : n + k ≤ 9999) :
    genSeq st t k =
      (List.range k).map (fun i => some (pfxFor st t ++ fmt04 (n + 1 + i))) := by
  induction k generalizing st n with
  | zero => rfl
  | succ k ih =>
    have hgen : genRecordNo st t = some (pfxFor st t ++ fmt04 (n + 1)) :=
      genRecordNo_wf st t n hwf
    have hwf' : wfNos (pfxFor st t) (n + 1)
        (appendNo st (pfxFor st t ++ fmt04 (n + 1))) :=
      wfNos_append (pfxFor st t) n st ⟨hwf.1, hwf.2.1, hwf.2.2⟩ (by omega)
    have hih := ih (appendNo st (pfxFor st t ++ fmt04 (n + 1))) (n + 1) hwf' (by omega)
    have hpfx : pfxFor (appendNo st (pfxFor st t ++ fmt04 (n + 1))) t = pfxFor st t := rfl
    rw [hpfx] at hih
    unfold genSeq
    simp only [hgen]
    rw [hih]
    rw [List.range_succ_eq_map, List.map_cons, List.map_map]
    refine congrArg₂ List.cons (by simp) ?_
    apply List.map_congr_left
    intro a ha
    have harith : n + 1 + 1 + a = n + 1 + (a + 1) := by omega
    simp [Function.comp, harith]

/-- Claim C7 witness: three sequential generations on an empty day produce
suffixes 0001, 0002, 0003. -/
theorem c7_gen_sequential_witness :
    genSeq baseState 1 3 =
      [some "RK202501010001", some "RK202501010002", some "RK202501010003"] := by
  have hwf : wfNos (pfxFor baseState 1) 0 baseState := by
    refine ⟨by decide, ?_, Or.inl rfl⟩
    intro s hs
    simp [matchingNos, recordNos, baseState] at hs
  have h := c7_gen_sequential baseState 1 0 3 hwf (by decide)
  rw [h]
  decide

/-- Claim C10: the generator never checks an upper bound on the daily
sequence: while the top number `n` is below 9999 the result is the fixed
14-character prefix-plus-four-digits form, but at `n = 9999` it silently
returns the prefix followed by the five-digit suffix `10000` — a 15-character
number — instead of failing. -/
theorem c10_gen_no_bound (st : DBState) (t : Int) (n : Nat)
    (hdate : st.nowDate.length = 8)
    (hwf : wfNos (pfxFor st t) n st) :
    (n < 9999 →
      genRecordNo st t = some (pfxFor st t ++ fmt04 (n + 1)) ∧
      (pfxFor st t ++ fmt04 (n + 1)).length = 14) ∧
    (n = 9999 →
      genRecordNo st t = some (pfxFor st t ++ "10000") ∧
      (pfxFor st t ++ "10000").length = 15) := by
  have hgen := genRecordNo_wf st t n hwf
  have hplen : (pfxFor st t).length = 10 := by
    unfold pfxFor
    rw [String.length_append, hdate]
    have h2 : (if t = 1 then "RK" else if t = 2 then "CK" else "SR").length = 2 := by
      split_ifs <;> rfl
    omega
  constructor
  · intro hlt
    refine ⟨hgen, ?_⟩
    rw [String.length_append, hplen]
    have h4 : (fmt04 (n + 1)).length = 4 := by
      rw [fmt04_eq_pad (by omega)]
      exact padDigits_length 4 (n + 1)
    omega
  · intro he
    subst he
    have h10 : fmt04 (9999 + 1) = "10000" := by decide
    rw [h10] at hgen
    refine ⟨hgen, ?_⟩
    rw [String.length_append, hplen]
    have h5 : ("10000" : String).length = 5 := rfl
    omega

/-- Claim C10 witness: with `RK202501019999` stored, the next generated
number is the 15-character `RK2025010110000`. -/
theorem c10_gen_no_bound_witness :
    genRecordNo overflowState 1 = some "RK2025010110000" ∧
    ("RK2025010110000" : String).length = 15 := by
  have hwf : wfNos (pfxFor overflowState 1) 9999 overflowState := by
    refine ⟨by decide, ?_, Or.inr (by decide)⟩
    intro s hs
    have hm : matchingNos (pfxFor overflowState 1) overflowState =
        ["RK202501019999"] := by decide
    rw [hm] at hs
    have hseq : s = "RK202501019999" := by simpa using hs
    exact ⟨9999, by decide, by rw [hseq]; decide, le_refl _⟩
  have h := (c10_gen_no_bound overflowState 1 9999 (by decide) hwf).2 rfl
  obtain ⟨h1, h2⟩ := h
  refine ⟨?_, rfl⟩
  rw [h1]
  decide

end StockCore
